import Mathlib

/-!
Verification of the Nexel-24 emulator (Rust sources under `src/`) against its
natural-language specification.  Machine integers are embedded as `Nat`
(respectively `Int` for signed quantities) with explicit reductions modulo
`2^w` exactly where the Rust code wraps or casts.  `Vec<u8>` memory regions
are embedded as functions from offsets to byte values; every array access in
the Rust code is guarded to be in bounds, so the functional embedding is
exact.  Fallible Rust functions returning `Result` are embedded with
`Except`.
-/

namespace Nexel

/-- Rust cast `as u8`: truncate to the low 8 bits. -/
def toU8 (n : Nat) : Nat := n % 256

/-- Rust cast `as u16`: truncate to the low 16 bits. -/
def toU16 (n : Nat) : Nat := n % 65536

/-- Rust cast `as u32`: truncate to the low 32 bits. -/
def toU32 (n : Nat) : Nat := n % 4294967296

/-- Reinterpret a `u32` bit pattern (given as a `Nat < 2^32`) as an `i32`
(two's complement), the Rust cast `as i32`. -/
def i32OfU32 (n : Nat) : Int :=
  if n % 4294967296 < 2147483648 then ((n % 4294967296 : Nat) : Int)
  else ((n % 4294967296 : Nat) : Int) - 4294967296

/-- Reinterpret a `u8` bit pattern as an `i8` and sign-extend, the Rust cast
chain `as i8 as i32`. -/
def i8OfU8 (n : Nat) : Int :=
  if n % 256 < 128 then ((n % 256 : Nat) : Int) else ((n % 256 : Nat) : Int) - 256

/-- Rust cast `as u32` applied to a (possibly negative) `i32` value:
two's-complement bit pattern of the signed value. -/
def u32OfI32 (v : Int) : Nat := (v % 4294967296).toNat

/-- Rust cast `as u8` applied to an `i8` value: two's-complement byte. -/
def u8OfI8 (v : Int) : Nat := (v % 256).toNat

/-! ### Bus24 (`src/core/bus.rs`)

The eight memory regions of the 24-bit bus.  Each `Vec<u8>` of the Rust
struct is embedded as a function from the region-local offset to the stored
byte; `Bus24::new` fills every region with zeroes. -/

structure Bus24 where
  workram : Nat → Nat
  expanded_ram : Nat → Nat
  io : Nat → Nat
  vram : Nat → Nat
  cram : Nat → Nat
  cart_rom : Nat → Nat
  cart_save : Nat → Nat
  bios : Nat → Nat

namespace Bus24

def WORKRAM_SIZE : Nat := 0x010000
def EXPANDED_RAM_SIZE : Nat := 0x030000
def IO_SIZE : Nat := 0x010000
def VRAM_SIZE : Nat := 0x080000
def CRAM_SIZE : Nat := 0x010000
def CART_ROM_SIZE : Nat := 0x600000
def CART_SAVE_SIZE : Nat := 0x040000
def BIOS_SIZE : Nat := 0x010000

def WORKRAM_BASE : Nat := 0x000000
def EXPANDED_RAM_BASE : Nat := 0x010000
def IO_BASE : Nat := 0x100000
def VRAM_BASE : Nat := 0x200000
def CRAM_BASE : Nat := 0x280000
def CART_ROM_BASE : Nat := 0x400000
def CART_SAVE_BASE : Nat := 0xA00000
def BIOS_BASE : Nat := 0xFF0000

def new : Bus24 :=
  { workram := fun _ => 0
    expanded_ram := fun _ => 0
    io := fun _ => 0
    vram := fun _ => 0
    cram := fun _ => 0
    cart_rom := fun _ => 0
    cart_save := fun _ => 0
    bios := fun _ => 0 }

/-- Load cartridge ROM data: copy the first `min (data.length) CART_ROM_SIZE`
bytes of `data` to the start of the region. -/
def load_cart_rom (bus : Bus24) (data : List Nat) : Bus24 :=
  { bus with cart_rom := fun i =>
      if i < min data.length CART_ROM_SIZE then data.getD i 0 else bus.cart_rom i }

/-- Load BIOS data: copy the first `min (data.length) BIOS_SIZE` bytes. -/
def load_bios (bus : Bus24) (data : List Nat) : Bus24 :=
  { bus with bios := fun i =>
      if i < min data.length BIOS_SIZE then data.getD i 0 else bus.bios i }

/-- Byte read over the 24-bit address space, mirroring the guard order of the
Rust `match`: WorkRAM, ExpandedRAM, I/O, VRAM, CRAM, CartROM, CartSave, BIOS,
with unmapped reads returning `0xFF`. -/
def read_u8 (bus : Bus24) (addr : Nat) : Nat :=
  let a := addr % 0x1000000
  if a < EXPANDED_RAM_BASE then bus.workram a
  else if EXPANDED_RAM_BASE ≤ a ∧ a < 0x040000 then bus.expanded_ram (a - EXPANDED_RAM_BASE)
  else if IO_BASE ≤ a ∧ a < IO_BASE + IO_SIZE then bus.io (a - IO_BASE)
  else if VRAM_BASE ≤ a ∧ a < VRAM_BASE + VRAM_SIZE then bus.vram (a - VRAM_BASE)
  else if CRAM_BASE ≤ a ∧ a < CRAM_BASE + CRAM_SIZE then bus.cram (a - CRAM_BASE)
  else if CART_ROM_BASE ≤ a ∧ a < CART_ROM_BASE + CART_ROM_SIZE then
    bus.cart_rom (a - CART_ROM_BASE)
  else if CART_SAVE_BASE ≤ a ∧ a < CART_SAVE_BASE + CART_SAVE_SIZE then
    bus.cart_save (a - CART_SAVE_BASE)
  else if BIOS_BASE ≤ a then
    if a - BIOS_BASE < BIOS_SIZE then bus.bios (a - BIOS_BASE) else 0xFF
  else 0xFF

/-- Byte write over the 24-bit address space; ROM, BIOS and unmapped
addresses ignore writes. -/
def write_u8 (bus : Bus24) (addr : Nat) (value : Nat) : Bus24 :=
  let a := addr % 0x1000000
  if a < EXPANDED_RAM_BASE then
    { bus with workram := fun i => if i = a then value else bus.workram i }
  else if EXPANDED_RAM_BASE ≤ a ∧ a < 0x040000 then
    { bus with expanded_ram := fun i =>
        if i = a - EXPANDED_RAM_BASE then value else bus.expanded_ram i }
  else if IO_BASE ≤ a ∧ a < IO_BASE + IO_SIZE then
    { bus with io := fun i => if i = a - IO_BASE then value else bus.io i }
  else if VRAM_BASE ≤ a ∧ a < VRAM_BASE + VRAM_SIZE then
    { bus with vram := fun i => if i = a - VRAM_BASE then value else bus.vram i }
  else if CRAM_BASE ≤ a ∧ a < CRAM_BASE + CRAM_SIZE then
    { bus with cram := fun i => if i = a - CRAM_BASE then value else bus.cram i }
  else if CART_ROM_BASE ≤ a ∧ a < CART_ROM_BASE + CART_ROM_SIZE then bus
  else if CART_SAVE_BASE ≤ a ∧ a < CART_SAVE_BASE + CART_SAVE_SIZE then
    { bus with cart_save := fun i =>
        if i = a - CART_SAVE_BASE then value else bus.cart_save i }
  else bus

/-- Little-endian u16 read; the `+1` address uses `u32::wrapping_add`. -/
def read_u16 (bus : Bus24) (addr : Nat) : Nat :=
  let lo := bus.read_u8 addr
  let hi := bus.read_u8 (toU32 (addr + 1))
  lo ||| (hi <<< 8)

/-- Little-endian u16 write. -/
def write_u16 (bus : Bus24) (addr : Nat) (v : Nat) : Bus24 :=
  let bus := bus.write_u8 addr (v &&& 0xFF)
  bus.write_u8 (toU32 (addr + 1)) (toU8 (v >>> 8))

/-- Little-endian 24-bit read (returned as a `u32` value). -/
def read_u24 (bus : Bus24) (addr : Nat) : Nat :=
  let lo := bus.read_u8 addr
  let mid := bus.read_u8 (toU32 (addr + 1))
  let hi := bus.read_u8 (toU32 (addr + 2))
  lo ||| (mid <<< 8) ||| (hi <<< 16)

/-- Little-endian 24-bit write (upper 8 bits of `v` ignored). -/
def write_u24 (bus : Bus24) (addr : Nat) (v : Nat) : Bus24 :=
  let bus := bus.write_u8 addr (v &&& 0xFF)
  let bus := bus.write_u8 (toU32 (addr + 1)) ((v >>> 8) &&& 0xFF)
  bus.write_u8 (toU32 (addr + 2)) ((v >>> 16) &&& 0xFF)

end Bus24

end Nexel

namespace Nexel

/-! ### CPU (`src/cpu.rs`) -/

/-- CPU status register flags. -/
structure StatusFlags where
  carry : Bool
  zero : Bool
  interrupt_disable : Bool
  decimal : Bool
  overflow : Bool
  negative : Bool
deriving DecidableEq, Repr

namespace StatusFlags

def new : StatusFlags :=
  { carry := false, zero := false, interrupt_disable := false,
    decimal := false, overflow := false, negative := false }

/-- Update zero and negative flags from a 16-bit result. -/
def update_zn (sr : StatusFlags) (value : Nat) : StatusFlags :=
  { sr with zero := value = 0, negative := value &&& 0x8000 ≠ 0 }

end StatusFlags

/-- HXC-24 CPU state.  `pending_interrupts` is the `Vec<u8>` interrupt queue;
ids are embedded as `Nat`. -/
structure Cpu where
  a : Nat
  x : Nat
  y : Nat
  sp : Nat
  pc : Nat
  sr : StatusFlags
  r : Fin 8 → Nat
  cycles : Nat
  halted : Bool
  pending_interrupts : List Nat

namespace Cpu

/-- Interrupt priority table of `request_interrupt`: ids `0..7` map to
themselves, any other id to priority `0`. -/
def priorityOf (i : Nat) : Nat :=
  match i with
  | 0 => 0
  | 1 => 1
  | 2 => 2
  | 3 => 3
  | 4 => 4
  | 5 => 5
  | 6 => 6
  | 7 => 7
  | _ => 0

/-- Queue order used by `sort_by_key(Reverse(priority))`: `a` may precede `b`
when `a`'s priority is at least `b`'s (priority descending). -/
def queueRel (a b : Nat) : Prop := priorityOf b ≤ priorityOf a

instance : DecidableRel queueRel := fun _ _ => Nat.decLe _ _

instance : IsTotal Nat queueRel :=
  ⟨fun a b => (Nat.le_total (priorityOf b) (priorityOf a)).imp id id⟩

instance : IsTrans Nat queueRel :=
  ⟨fun _ _ _ h1 h2 => Nat.le_trans h2 h1⟩

def new : Cpu :=
  { a := 0, x := 0, y := 0, sp := 0xFFFF, pc := 0xFF0000,
    sr := StatusFlags.new, r := fun _ => 0, cycles := 0, halted := false,
    pending_interrupts := [] }

/-- Reset the CPU; the reset vector is read from the BIOS base. -/
def reset (cpu : Cpu) (bus : Bus24) : Cpu :=
  { cpu with
    a := 0, x := 0, y := 0, sp := 0xFFFF, r := fun _ => 0,
    sr := StatusFlags.new, halted := false,
    pc := bus.read_u24 0xFF0000, cycles := 0 }

/-- Request an interrupt: maskable ids are dropped while the
interrupt-disable flag is set; otherwise the id is enqueued unless already
pending and the queue is (stably) re-sorted by priority descending. -/
def request_interrupt (cpu : Cpu) (int : Nat) : Cpu :=
  if int ≠ 7 ∧ cpu.sr.interrupt_disable then cpu
  else if cpu.pending_interrupts.contains int then cpu
  else
    { cpu with pending_interrupts :=
        List.insertionSort queueRel (cpu.pending_interrupts ++ [int]) }

/-- Trigger a non-maskable interrupt: id 7 is inserted at the front of the
queue when not already pending, ignoring the interrupt-disable flag. -/
def trigger_nmi (cpu : Cpu) : Cpu :=
  if cpu.pending_interrupts.contains 7 then cpu
  else { cpu with pending_interrupts := 7 :: cpu.pending_interrupts }

/-- Push a 24-bit value: write the low, middle, high bytes at `SP`,
decrementing (`u16::wrapping_sub`) after each write. -/
def push_u24 (cpu : Cpu) (bus : Bus24) (value : Nat) : Cpu × Bus24 :=
  let bus := bus.write_u8 cpu.sp (value &&& 0xFF)
  let sp1 := (cpu.sp + 65535) % 65536
  let bus := bus.write_u8 sp1 ((value >>> 8) &&& 0xFF)
  let sp2 := (sp1 + 65535) % 65536
  let bus := bus.write_u8 sp2 ((value >>> 16) &&& 0xFF)
  let sp3 := (sp2 + 65535) % 65536
  ({ cpu with sp := sp3 }, bus)

/-- Pop a 24-bit value: increment `SP` (`u16::wrapping_add`) before each of
the three reads, high byte first. -/
def pop_u24 (cpu : Cpu) (bus : Bus24) : Nat × Cpu :=
  let sp1 := (cpu.sp + 1) % 65536
  let hi := bus.read_u8 sp1
  let sp2 := (sp1 + 1) % 65536
  let mid := bus.read_u8 sp2
  let sp3 := (sp2 + 1) % 65536
  let lo := bus.read_u8 sp3
  (lo ||| (mid <<< 8) ||| (hi <<< 16), { cpu with sp := sp3 })

/-- Service the highest-priority pending interrupt when permitted.  Returns
whether an interrupt was handled together with the updated CPU and bus. -/
def handle_interrupts (cpu : Cpu) (bus : Bus24) : Bool × Cpu × Bus24 :=
  match cpu.pending_interrupts with
  | [] => (false, cpu, bus)
  | int :: rest =>
    if int ≠ 7 ∧ cpu.sr.interrupt_disable then (false, cpu, bus)
    else
      let vector_addr := 0xFF0000 + int * 3
      let handler_addr := bus.read_u24 vector_addr
      let (cpu1, bus1) := push_u24 cpu bus cpu.pc
      let cpu2 :=
        { cpu1 with
          sr := { cpu1.sr with interrupt_disable := true }
          pc := handler_addr
          pending_interrupts := rest
          cycles := cpu1.cycles + 7 }
      (true, cpu2, bus1)

/-- Execute one decoded instruction, mirroring the opcode `match` of
`Cpu::execute_instruction`. -/
def execute_instruction (cpu : Cpu) (opcode : Nat) (bus : Bus24) : Cpu × Bus24 :=
  match opcode with
  | 0x00 => ({ cpu with cycles := cpu.cycles + 1 }, bus)
  | 0x01 =>
    let value := bus.read_u16 cpu.pc
    let pc := toU32 (cpu.pc + 2)
    ({ cpu with pc := pc, a := value, sr := cpu.sr.update_zn value,
                cycles := cpu.cycles + 2 }, bus)
  | 0x02 =>
    let addr := bus.read_u24 cpu.pc
    let pc := toU32 (cpu.pc + 3)
    ({ cpu with pc := pc, cycles := cpu.cycles + 3 }, bus.write_u16 addr cpu.a)
  | 0x03 =>
    let value := bus.read_u16 cpu.pc
    let pc := toU32 (cpu.pc + 2)
    ({ cpu with pc := pc, x := value, sr := cpu.sr.update_zn value,
                cycles := cpu.cycles + 2 }, bus)
  | 0x04 =>
    let addr := bus.read_u24 cpu.pc
    let pc := toU32 (cpu.pc + 3)
    ({ cpu with pc := pc, cycles := cpu.cycles + 3 }, bus.write_u16 addr cpu.x)
  | 0x05 =>
    let value := bus.read_u16 cpu.pc
    let pc := toU32 (cpu.pc + 2)
    ({ cpu with pc := pc, y := value, sr := cpu.sr.update_zn value,
                cycles := cpu.cycles + 2 }, bus)
  | 0x06 =>
    let addr := bus.read_u24 cpu.pc
    let pc := toU32 (cpu.pc + 3)
    ({ cpu with pc := pc, cycles := cpu.cycles + 3 }, bus.write_u16 addr cpu.y)
  | 0x10 =>
    let value := bus.read_u16 cpu.pc
    let pc := toU32 (cpu.pc + 2)
    let sum := cpu.a + value
    let result := sum % 65536
    let carry := decide (65536 ≤ sum)
    let overflow := ((cpu.a ^^^ result) &&& (value ^^^ result) &&& 0x8000) ≠ 0
    ({ cpu with pc := pc, a := result,
                sr := { cpu.sr.update_zn result with carry := carry, overflow := overflow }
                cycles := cpu.cycles + 2 }, bus)
  | 0x11 =>
    let value := bus.read_u16 cpu.pc
    let pc := toU32 (cpu.pc + 2)
    let result := (cpu.a + 65536 - value % 65536) % 65536
    let borrow := decide (cpu.a < value)
    let overflow := ((cpu.a ^^^ value) &&& (cpu.a ^^^ result) &&& 0x8000) ≠ 0
    ({ cpu with pc := pc, a := result,
                sr := { cpu.sr.update_zn result with carry := !borrow, overflow := overflow }
                cycles := cpu.cycles + 2 }, bus)
  | 0x12 =>
    let value := bus.read_u16 cpu.pc
    let pc := toU32 (cpu.pc + 2)
    let result := cpu.a &&& value
    ({ cpu with pc := pc, a := result, sr := cpu.sr.update_zn result,
                cycles := cpu.cycles + 2 }, bus)
  | 0x13 =>
    let value := bus.read_u16 cpu.pc
    let pc := toU32 (cpu.pc + 2)
    let result := cpu.a ||| value
    ({ cpu with pc := pc, a := result, sr := cpu.sr.update_zn result,
                cycles := cpu.cycles + 2 }, bus)
  | 0x14 =>
    let value := bus.read_u16 cpu.pc
    let pc := toU32 (cpu.pc + 2)
    let result := cpu.a ^^^ value
    ({ cpu with pc := pc, a := result, sr := cpu.sr.update_zn result,
                cycles := cpu.cycles + 2 }, bus)
  | 0x20 =>
    let addr := bus.read_u24 cpu.pc
    ({ cpu with pc := addr, cycles := cpu.cycles + 3 }, bus)
  | 0x21 =>
    let addr := bus.read_u24 cpu.pc
    let pc := toU32 (cpu.pc + 3)
    let cpu := { cpu with pc := pc }
    let (cpu1, bus1) := push_u24 cpu bus cpu.pc
    ({ cpu1 with pc := addr, cycles := cpu1.cycles + 5 }, bus1)
  | 0x22 =>
    let (ret, cpu1) := pop_u24 cpu bus
    ({ cpu1 with pc := ret, cycles := cpu1.cycles + 4 }, bus)
  | 0x30 =>
    let offset := i8OfU8 (bus.read_u8 cpu.pc)
    let pc := toU32 (cpu.pc + 1)
    let pc := toU32 (pc + u32OfI32 offset)
    ({ cpu with pc := pc, cycles := cpu.cycles + 2 }, bus)
  | 0x31 =>
    let offset := i8OfU8 (bus.read_u8 cpu.pc)
    let pc := toU32 (cpu.pc + 1)
    if cpu.sr.zero then
      ({ cpu with pc := toU32 (pc + u32OfI32 offset), cycles := cpu.cycles + 3 }, bus)
    else
      ({ cpu with pc := pc, cycles := cpu.cycles + 2 }, bus)
  | 0x32 =>
    let offset := i8OfU8 (bus.read_u8 cpu.pc)
    let pc := toU32 (cpu.pc + 1)
    if !cpu.sr.zero then
      ({ cpu with pc := toU32 (pc + u32OfI32 offset), cycles := cpu.cycles + 3 }, bus)
    else
      ({ cpu with pc := pc, cycles := cpu.cycles + 2 }, bus)
  | 0x40 =>
    ({ cpu with sr := { cpu.sr with interrupt_disable := true },
                cycles := cpu.cycles + 1 }, bus)
  | 0x41 =>
    ({ cpu with sr := { cpu.sr with interrupt_disable := false },
                cycles := cpu.cycles + 1 }, bus)
  | 0x42 =>
    let (ret, cpu1) := pop_u24 cpu bus
    ({ cpu1 with pc := ret,
                 sr := { cpu1.sr with interrupt_disable := false },
                 cycles := cpu1.cycles + 5 }, bus)
  | 0xFF =>
    ({ cpu with halted := true, cycles := cpu.cycles + 1 }, bus)
  | _ => ({ cpu with cycles := cpu.cycles + 1 }, bus)

/-- One CPU step: a halted CPU burns a cycle; otherwise a pending interrupt
may be serviced instead of fetching, else fetch, advance `PC`, execute. -/
def step (cpu : Cpu) (bus : Bus24) : Cpu × Bus24 :=
  if cpu.halted then ({ cpu with cycles := cpu.cycles + 1 }, bus)
  else
    match handle_interrupts cpu bus with
    | (true, cpu1, bus1) => (cpu1, bus1)
    | (false, cpu1, bus1) =>
      let opcode := bus1.read_u8 cpu1.pc
      let cpu2 := { cpu1 with pc := toU32 (cpu1.pc + 1) }
      execute_instruction cpu2 opcode bus1

end Cpu

end Nexel

namespace Nexel

/-! ### VDP-T (`src/vdp.rs`)

Bitflag registers (`DisplayControl`, `DisplayStatus`, `BgControl`,
`SpriteControl`, `IrqFlags`) are embedded as `Nat` bit patterns over their
16-bit domain; `from_bits_truncate` becomes a bit mask of the declared
flags.  Signed register fields (`i16` scroll/affine values, `i32` reference
points) are stored as their two's-complement bit patterns, which is exactly
how the Rust getters and setters manipulate them.  The `framebuffer` field
and the renderer (`render_frame`, `render_bg0`, `render_bg1`,
`render_sprites`, `read_backdrop_color`, `rgb666_to_rgb888`) are omitted
from the embedding: inspection of the source shows they mutate only the
framebuffer, which no claim observes; every other effect of `Vdp::step` is
embedded exactly. -/

/-- Declared `DisplayControl` bits: ENABLE..POLYGON_ENABLE (0..4),
HBLANK/VBLANK/LINECMP IRQ (8..10), the two mode bits (12,13). -/
def DISPLAY_CONTROL_MASK : Nat := 0x371F

/-- Declared `DisplayStatus` bits 0..4. -/
def DISPLAY_STATUS_MASK : Nat := 0x1F

/-- Declared `BgControl` bits: 0, 4..9 and the two size bits (10,11). -/
def BG_CONTROL_MASK : Nat := 0xFF1

/-- Declared `SpriteControl` bits 0,1. -/
def SPRITE_CONTROL_MASK : Nat := 0x3

/-- Declared `IrqFlags` bits 0..3. -/
def IRQ_FLAGS_MASK : Nat := 0xF

/-- Bitflags `set` on a 16-bit flag word: insert or remove a bit. -/
def setBit (s bit : Nat) (b : Bool) : Nat :=
  if b then s ||| bit else s &&& (0xFFFF ^^^ bit)

/-- Sprite attribute entry (8 bytes in OAM). -/
structure SpriteAttr where
  y_pos : Nat
  x_pos : Nat
  tile_index : Nat
  attr : Nat
deriving DecidableEq, Repr

/-- VDP-T state (framebuffer omitted, see the section comment). -/
structure Vdp where
  vram : Nat → Nat
  cram : Nat → Nat
  regs : Nat → Nat
  display_control : Nat
  display_status : Nat
  v_count : Nat
  h_count : Nat
  bg0_control : Nat
  bg0_scroll_x : Nat
  bg0_scroll_y : Nat
  bg0_affine : Fin 4 → Nat
  bg0_ref_x : Nat
  bg0_ref_y : Nat
  bg0_tilemap_addr : Nat
  bg1_control : Nat
  bg1_scroll_x : Nat
  bg1_scroll_y : Nat
  bg1_tilemap_addr : Nat
  oam : Fin 128 → SpriteAttr
  sprite_control : Nat
  sprite_oam_addr : Nat
  dma_source : Nat
  dma_dest : Nat
  dma_length : Nat
  dma_active : Bool
  irq_enable : Nat
  irq_status : Nat
  irq_line_compare : Nat
  palette_index : Nat
  palette_data : Nat
  backdrop_color : Nat
  cycles : Nat
  frame_count : Nat

namespace Vdp

def VRAM_SIZE : Nat := 0x80000
def CRAM_SIZE : Nat := 0x10000
def CYCLES_PER_SCANLINE : Nat := 1024
def SCANLINES_PER_FRAME : Nat := 288
def VBLANK_START : Nat := 240

def new : Vdp :=
  { vram := fun _ => 0
    cram := fun _ => 0
    regs := fun _ => 0
    display_control := 0
    display_status := 0
    v_count := 0
    h_count := 0
    bg0_control := 0
    bg0_scroll_x := 0
    bg0_scroll_y := 0
    bg0_affine := fun i => if i = 0 ∨ i = 3 then 0x100 else 0
    bg0_ref_x := 0
    bg0_ref_y := 0
    bg0_tilemap_addr := 0
    bg1_control := 0
    bg1_scroll_x := 0
    bg1_scroll_y := 0
    bg1_tilemap_addr := 0
    oam := fun _ => { y_pos := 0, x_pos := 0, tile_index := 0, attr := 0 }
    sprite_control := 0
    sprite_oam_addr := 0
    dma_source := 0
    dma_dest := 0
    dma_length := 0
    dma_active := false
    irq_enable := 0
    irq_status := 0
    irq_line_compare := 0
    palette_index := 0
    palette_data := 0
    backdrop_color := 0
    cycles := 0
    frame_count := 0 }

/-- Byte read from VRAM; the index is reduced modulo the VRAM size, so the
`unwrap_or(0xFF)` fallback of the source is unreachable. -/
def read_vram (vdp : Vdp) (offset : Nat) : Nat :=
  vdp.vram (offset % VRAM_SIZE)

/-- Byte write to VRAM, index reduced modulo the VRAM size. -/
def write_vram (vdp : Vdp) (offset : Nat) (value : Nat) : Vdp :=
  { vdp with vram := fun i => if i = offset % VRAM_SIZE then value else vdp.vram i }

/-- Byte read from CRAM, index reduced modulo the CRAM size. -/
def read_cram (vdp : Vdp) (offset : Nat) : Nat :=
  vdp.cram (offset % CRAM_SIZE)

/-- Byte write to CRAM, index reduced modulo the CRAM size. -/
def write_cram (vdp : Vdp) (offset : Nat) (value : Nat) : Vdp :=
  { vdp with cram := fun i => if i = offset % CRAM_SIZE then value else vdp.cram i }

/-- Set the backdrop color: store the three 6-bit components in CRAM[0..3]. -/
def set_backdrop_color (vdp : Vdp) (r g b : Nat) : Vdp :=
  let vdp := { vdp with cram := fun i => if i = 0 then r &&& 0x3F else vdp.cram i }
  let vdp := { vdp with cram := fun i => if i = 1 then g &&& 0x3F else vdp.cram i }
  { vdp with cram := fun i => if i = 2 then b &&& 0x3F else vdp.cram i }

/-- Start a DMA transfer.  The source raises `DMA_BUSY` together with
`dma_active`, contains a `TODO` in place of the actual transfer, and then
immediately clears both again; no bytes are copied and no interrupt state is
touched. -/
def start_dma (vdp : Vdp) : Vdp :=
  let vdp := { vdp with dma_active := true }
  let vdp := { vdp with display_status := vdp.display_status ||| 0x8 }
  let vdp := { vdp with dma_active := false }
  { vdp with display_status := vdp.display_status &&& (0xFFFF ^^^ 0x8) }

/-- Read a 16-bit register, mirroring the offset `match` of `Vdp::read_reg`. -/
def read_reg (vdp : Vdp) (offset : Nat) : Nat :=
  match offset with
  | 0x0000 => vdp.display_control
  | 0x0002 => vdp.display_status
  | 0x0004 => vdp.v_count
  | 0x0006 => vdp.h_count
  | 0x0010 => vdp.bg0_control
  | 0x0012 => vdp.bg0_scroll_x
  | 0x0014 => vdp.bg0_scroll_y
  | 0x0016 => vdp.bg0_affine 0
  | 0x0018 => vdp.bg0_affine 1
  | 0x001A => vdp.bg0_affine 2
  | 0x001C => vdp.bg0_affine 3
  | 0x001E => vdp.bg0_ref_x &&& 0xFFFF
  | 0x0020 => (vdp.bg0_ref_x >>> 16) &&& 0xFF
  | 0x0022 => vdp.bg0_ref_y &&& 0xFFFF
  | 0x0024 => (vdp.bg0_ref_y >>> 16) &&& 0xFF
  | 0x0026 => toU16 vdp.bg0_tilemap_addr
  | 0x0030 => vdp.bg1_control
  | 0x0032 => vdp.bg1_scroll_x
  | 0x0034 => vdp.bg1_scroll_y
  | 0x0036 => toU16 vdp.bg1_tilemap_addr
  | 0x0050 => vdp.sprite_control
  | 0x0052 => vdp.sprite_oam_addr
  | 0x0070 => vdp.dma_source &&& 0xFFFF
  | 0x0072 => (vdp.dma_source >>> 16) &&& 0xFF
  | 0x0074 => vdp.dma_dest &&& 0xFFFF
  | 0x0076 => (vdp.dma_dest >>> 16) &&& 0xFF
  | 0x0078 => vdp.dma_length
  | 0x007A => 0
  | 0x0080 => vdp.irq_enable
  | 0x0082 => vdp.irq_status
  | 0x0084 => vdp.irq_line_compare
  | 0x0090 => vdp.palette_index
  | 0x0092 => vdp.palette_data
  | 0x0094 => vdp.backdrop_color
  | _ =>
    let idx := offset % 256
    if idx + 1 < 256 then vdp.regs idx ||| (vdp.regs (idx + 1) <<< 8)
    else 0xFF

/-- Write a 16-bit register, mirroring the offset `match` of
`Vdp::write_reg`. -/
def write_reg (vdp : Vdp) (offset : Nat) (value : Nat) : Vdp :=
  match offset with
  | 0x0000 => { vdp with display_control := value &&& DISPLAY_CONTROL_MASK }
  | 0x0004 => vdp
  | 0x0006 => vdp
  | 0x0010 => { vdp with bg0_control := value &&& BG_CONTROL_MASK }
  | 0x0012 => { vdp with bg0_scroll_x := value }
  | 0x0014 => { vdp with bg0_scroll_y := value }
  | 0x0016 => { vdp with bg0_affine := fun i => if i = 0 then value else vdp.bg0_affine i }
  | 0x0018 => { vdp with bg0_affine := fun i => if i = 1 then value else vdp.bg0_affine i }
  | 0x001A => { vdp with bg0_affine := fun i => if i = 2 then value else vdp.bg0_affine i }
  | 0x001C => { vdp with bg0_affine := fun i => if i = 3 then value else vdp.bg0_affine i }
  | 0x001E => { vdp with bg0_ref_x := (vdp.bg0_ref_x &&& 0xFFFF0000) ||| value }
  | 0x0020 => { vdp with bg0_ref_x := (vdp.bg0_ref_x &&& 0x0000FFFF) ||| ((value &&& 0xFF) <<< 16) }
  | 0x0022 => { vdp with bg0_ref_y := (vdp.bg0_ref_y &&& 0xFFFF0000) ||| value }
  | 0x0024 => { vdp with bg0_ref_y := (vdp.bg0_ref_y &&& 0x0000FFFF) ||| ((value &&& 0xFF) <<< 16) }
  | 0x0026 => { vdp with bg0_tilemap_addr := value }
  | 0x0030 => { vdp with bg1_control := value &&& BG_CONTROL_MASK }
  | 0x0032 => { vdp with bg1_scroll_x := value }
  | 0x0034 => { vdp with bg1_scroll_y := value }
  | 0x0036 => { vdp with bg1_tilemap_addr := value }
  | 0x0050 => { vdp with sprite_control := value &&& SPRITE_CONTROL_MASK }
  | 0x0052 => { vdp with sprite_oam_addr := value }
  | 0x0070 => { vdp with dma_source := (vdp.dma_source &&& 0xFFFF0000) ||| value }
  | 0x0072 => { vdp with dma_source := (vdp.dma_source &&& 0x0000FFFF) ||| ((value &&& 0xFF) <<< 16) }
  | 0x0074 => { vdp with dma_dest := (vdp.dma_dest &&& 0xFFFF0000) ||| value }
  | 0x0076 => { vdp with dma_dest := (vdp.dma_dest &&& 0x0000FFFF) ||| ((value &&& 0xFF) <<< 16) }
  | 0x0078 => { vdp with dma_length := value }
  | 0x007A => if value &&& 0x8000 ≠ 0 then vdp.start_dma else vdp
  | 0x0080 => { vdp with irq_enable := value &&& IRQ_FLAGS_MASK }
  | 0x0082 => { vdp with irq_status := vdp.irq_status &&& (0xFFFF ^^^ (value &&& IRQ_FLAGS_MASK)) }
  | 0x0084 => { vdp with irq_line_compare := value }
  | 0x0090 => { vdp with palette_index := toU8 value }
  | 0x0092 =>
    let vdp := { vdp with palette_data := toU8 value }
    let idx := vdp.palette_index * 3
    vdp.write_cram idx (vdp.palette_data &&& 0x3F)
  | 0x0094 =>
    let vdp := { vdp with backdrop_color := value }
    let r := value &&& 0x3F
    let g := (value >>> 6) &&& 0x3F
    let b := (value >>> 12) &&& 0x3F
    vdp.set_backdrop_color r g b
  | _ =>
    let idx := offset % 256
    if idx + 1 < 256 then
      { vdp with regs := fun i =>
          if i = idx then value &&& 0xFF
          else if i = idx + 1 then (value >>> 8) &&& 0xFF
          else vdp.regs i }
    else vdp

/-- Advance VDP timing by `cycles` cycles; returns whether this step entered
the vertical-blank region together with the new state.  `render_frame`
(guarded by the display-enable bit) touches only the omitted framebuffer and
is elided. -/
def step (vdp : Vdp) (cycles : Nat) : Bool × Vdp :=
  let vdp := { vdp with cycles := vdp.cycles + cycles }
  let old_v := vdp.v_count
  let scanline_cycles := vdp.cycles / CYCLES_PER_SCANLINE
  let vdp := { vdp with
    v_count := scanline_cycles % SCANLINES_PER_FRAME
    h_count := vdp.cycles % CYCLES_PER_SCANLINE }
  let vdp := { vdp with
    display_status := setBit vdp.display_status 0x1 (decide (VBLANK_START ≤ vdp.v_count)) }
  let vdp := { vdp with
    display_status := setBit vdp.display_status 0x2 (decide (768 ≤ vdp.h_count)) }
  let entered_vblank := decide (old_v < VBLANK_START) && decide (VBLANK_START ≤ vdp.v_count)
  let vdp :=
    if entered_vblank then { vdp with frame_count := vdp.frame_count + 1 }
    else vdp
  (entered_vblank, vdp)

/-- Check whether the VBLANK status bit is set. -/
def in_vblank (vdp : Vdp) : Bool := vdp.display_status &&& 0x1 ≠ 0

end Vdp

end Nexel

namespace Nexel

/-! ### Emulator (`src/emulator.rs`)

The `vlu`, `apu` and `vm` components of the Rust `Nexel24` struct are
embedded separately (`Vlu`, `Apu`); `Nexel24::step`, `read_memory` and
`write_memory` never touch them.  `Nexel24::new` also calls
`bus.enable_vdp_routing()`, a method that does not exist anywhere under
`src/` (the `Bus24` of `src/core/bus.rs` has neither such a method nor any
routing state or reference to the VDP), so it has no effect on the embedded
state. -/

def VDP_IO_BASE : Nat := Bus24.IO_BASE

structure Nexel24 where
  cpu : Cpu
  bus : Bus24
  vdp : Vdp
  frame_count : Nat
  target_cycles_per_frame : Nat

namespace Nexel24

def CPU_CLOCK_HZ : Nat := 18432000
def TARGET_FPS : Nat := 60
def CYCLES_PER_FRAME : Nat := CPU_CLOCK_HZ / TARGET_FPS

def new : Nexel24 :=
  { cpu := Cpu.new
    bus := Bus24.new
    vdp := Vdp.new
    frame_count := 0
    target_cycles_per_frame := CYCLES_PER_FRAME }

def reset (emu : Nexel24) : Nexel24 :=
  { emu with cpu := emu.cpu.reset emu.bus, frame_count := 0 }

def load_bios (emu : Nexel24) (data : List Nat) : Nexel24 :=
  { emu with bus := emu.bus.load_bios data }

def load_cartridge (emu : Nexel24) (data : List Nat) : Nexel24 :=
  { emu with bus := emu.bus.load_cart_rom data }

/-- Execute a single CPU instruction; the CPU steps directly on the `Bus24`
and the VDP is then advanced by the literal constant `1` (the source carries
a `TODO: Properly track cycles per instruction` here). -/
def step (emu : Nexel24) : Nexel24 :=
  let (cpu, bus) := emu.cpu.step emu.bus
  let (_, vdp) := emu.vdp.step 1
  { emu with cpu := cpu, bus := bus, vdp := vdp }

/-- Read from memory with VDP routing (`Nexel24::read_memory`). -/
def read_memory (emu : Nexel24) (addr : Nat) : Nat :=
  let a := addr % 0x1000000
  if VDP_IO_BASE ≤ a ∧ a < VDP_IO_BASE + 0x4000 then
    let offset := a - VDP_IO_BASE
    if offset % 2 = 0 then (emu.vdp.read_reg offset) &&& 0xFF
    else toU8 ((emu.vdp.read_reg (offset - 1)) >>> 8)
  else if Bus24.VRAM_BASE ≤ a ∧ a < Bus24.VRAM_BASE + 0x80000 then
    emu.vdp.read_vram (a - Bus24.VRAM_BASE)
  else if Bus24.CRAM_BASE ≤ a ∧ a < Bus24.CRAM_BASE + 0x10000 then
    emu.vdp.read_cram (a - Bus24.CRAM_BASE)
  else emu.bus.read_u8 a

/-- Write to memory with VDP routing (`Nexel24::write_memory`). -/
def write_memory (emu : Nexel24) (addr : Nat) (value : Nat) : Nexel24 :=
  let a := addr % 0x1000000
  if VDP_IO_BASE ≤ a ∧ a < VDP_IO_BASE + 0x4000 then
    let offset := a - VDP_IO_BASE
    if offset % 2 = 0 then
      let current := emu.vdp.read_reg offset
      let new_value := (current &&& 0xFF00) ||| (value % 256)
      { emu with vdp := emu.vdp.write_reg offset new_value }
    else
      let current := emu.vdp.read_reg (offset - 1)
      let new_value := (current &&& 0x00FF) ||| ((value % 256) <<< 8)
      { emu with vdp := emu.vdp.write_reg (offset - 1) new_value }
  else if Bus24.VRAM_BASE ≤ a ∧ a < Bus24.VRAM_BASE + 0x80000 then
    { emu with vdp := emu.vdp.write_vram (a - Bus24.VRAM_BASE) value }
  else if Bus24.CRAM_BASE ≤ a ∧ a < Bus24.CRAM_BASE + 0x10000 then
    { emu with vdp := emu.vdp.write_cram (a - Bus24.CRAM_BASE) value }
  else { emu with bus := emu.bus.write_u8 a value }

end Nexel24

/-! ### APU-6 (`src/apu.rs`)

Only the state and the operations the claims mention are embedded
(`update_status`, `step`, `take_buffer_empty`); the APU register map is not
referenced by any claim.  The two `StatusFlags` bits of the APU are
`BUFFER_EMPTY = 0x01` and `CHANNEL_ACTIVE = 0x02`; `EffectMask` is a bit
pattern over bits 0..2. -/

/-- Voice types supported per channel. -/
inductive ChannelVoice where
  | Pcm
  | Fm
  | Wavetable
  | Noise
deriving DecidableEq, Repr

/-- Per-channel APU state. -/
structure ChannelState where
  enabled : Bool
  voice : ChannelVoice
  volume : Nat
  pan : Nat
  frequency : Nat
  effect : Nat
  sample_address : Nat
  sample_length : Nat
  buffer_empty : Bool
deriving DecidableEq, Repr

def ChannelState.default : ChannelState :=
  { enabled := false, voice := ChannelVoice.Pcm, volume := 0xFF, pan := 0x80,
    frequency := 0, effect := 0, sample_address := 0, sample_length := 0,
    buffer_empty := true }

def APU_CHANNEL_COUNT : Nat := 6

/-- APU-6 state. -/
structure Apu where
  channels : Fin 6 → ChannelState
  status : Nat
  global_control : Nat
  buffer_empty_latch : Bool

namespace Apu

def new : Apu :=
  { channels := fun _ => ChannelState.default
    status := 0x01
    global_control := 0
    buffer_empty_latch := false }

/-- Recompute the two status bits from the channel states. -/
def update_status (apu : Apu) : Apu :=
  let active := (List.finRange 6).any fun i => (apu.channels i).enabled
  let empty := (List.finRange 6).any fun i =>
    (apu.channels i).buffer_empty && (apu.channels i).enabled
  { apu with status := (if active then 0x02 else 0) ||| (if empty then 0x01 else 0) }

/-- Per-channel effect of `Apu::step` for an enabled channel. -/
def stepChannel (ticks : Nat) (ch : ChannelState) : ChannelState :=
  if ch.sample_length > 0 then
    let consumed := min ticks ch.sample_length
    let len := ch.sample_length - consumed
    if len = 0 then { ch with sample_length := len, buffer_empty := true }
    else { ch with sample_length := len }
  else { ch with buffer_empty := true }

/-- Whether stepping this channel raised a buffer-empty event. -/
def channelSawEmpty (ticks : Nat) (ch : ChannelState) : Bool :=
  ch.enabled &&
    (if ch.sample_length > 0 then decide (ch.sample_length - min ticks ch.sample_length = 0)
     else true)

/-- Advance audio processing by `cycles` CPU cycles.  `cycles = 0` returns
immediately; otherwise `ticks = max (cycles / 64) 1` and every enabled
channel is stepped, raising the global latch when any channel went empty. -/
def step (apu : Apu) (cycles : Nat) : Apu :=
  if cycles = 0 then apu
  else
    let ticks := max (cycles / 64) 1
    let saw_empty := (List.finRange 6).any fun i => channelSawEmpty ticks (apu.channels i)
    let apu := { apu with channels := fun i =>
      (if (apu.channels i).enabled then stepChannel ticks (apu.channels i)
       else apu.channels i) }
    let apu :=
      if saw_empty then { apu with buffer_empty_latch := true } else apu
    apu.update_status

/-- Consume the buffer-empty latch; reports whether an interrupt should
fire, clearing the latch when it was set. -/
def take_buffer_empty (apu : Apu) : Bool × Apu :=
  let ready := apu.buffer_empty_latch
  if ready then (ready, { apu with buffer_empty_latch := false })
  else (ready, apu)

end Apu

end Nexel

namespace Nexel

/-! ### VLU-24 (`src/vlu.rs`)

The VLU operates on `f32` data.  The claims about it concern only its
control flow (error conditions, state preservation on failure, interrupt on
success), so the embedding is parametric in the scalar type `α` together
with a record of the floating-point primitives the source uses
(`+`, `-`, `*`, `mul_add`, the `magnitude_sq <= f32::EPSILON` test of
`normalize`, and the reciprocal square root `1.0 / sqrt`).  Instantiating
`α` with IEEE `f32` recovers the source exactly; every theorem below holds
for all instantiations. -/

/-- Primitive scalar operations used by the VLU. -/
structure ScalarOps (α : Type) where
  add : α → α → α
  sub : α → α → α
  mul : α → α → α
  mulAdd : α → α → α → α
  zero : α
  leEpsilon : α → Bool
  invSqrt : α → α

/-- An individual 3D vector used by the VLU. -/
structure Vec3 (α : Type) where
  x : α
  y : α
  z : α

namespace Vec3

/-- Vec3::default(): all components zero. -/
def default (ops : ScalarOps α) : Vec3 α := ⟨ops.zero, ops.zero, ops.zero⟩

/-- Dot product via `mul_add`. -/
def dot (ops : ScalarOps α) (a b : Vec3 α) : α :=
  ops.mulAdd a.x b.x (ops.mulAdd a.y b.y (ops.mul a.z b.z))

/-- Cross product. -/
def cross (ops : ScalarOps α) (a b : Vec3 α) : Vec3 α :=
  { x := ops.sub (ops.mul a.y b.z) (ops.mul a.z b.y)
    y := ops.sub (ops.mul a.z b.x) (ops.mul a.x b.z)
    z := ops.sub (ops.mul a.x b.y) (ops.mul a.y b.x) }

/-- Normalize: the zero vector when the squared magnitude is at most
`f32::EPSILON`, otherwise scale by the inverse length (the non-`fast-math`
build). -/
def normalize (ops : ScalarOps α) (v : Vec3 α) : Vec3 α :=
  let magnitude_sq := dot ops v v
  if ops.leEpsilon magnitude_sq then default ops
  else
    let inv_len := ops.invSqrt magnitude_sq
    { x := ops.mul v.x inv_len, y := ops.mul v.y inv_len, z := ops.mul v.z inv_len }

end Vec3

/-- 3×3 matrix register. -/
structure Mat3 (α : Type) where
  rows : Fin 3 → Vec3 α

/-- Matrix-vector product, row dot products. -/
def Mat3.mul_vec (ops : ScalarOps α) (m : Mat3 α) (v : Vec3 α) : Vec3 α :=
  ⟨(m.rows 0).dot ops v, (m.rows 1).dot ops v, (m.rows 2).dot ops v⟩

/-- Job description supplied to the VLU; register indices are `usize`. -/
inductive VluJob where
  | Transform (dest vec matrix : Nat)
  | Dot (a b : Nat)
  | Cross (dest a b : Nat)
  | Normalize (dest src : Nat)
deriving DecidableEq, Repr

/-- Result of a VLU computation. -/
inductive VluResult (α : Type) where
  | Vector (v : Vec3 α)
  | Scalar (s : α)

/-- VLU specific errors. -/
inductive VluError where
  | InvalidVectorRegister (idx : Nat)
  | InvalidMatrixRegister (idx : Nat)
deriving DecidableEq, Repr

def VECTOR_REGISTER_COUNT : Nat := 8
def MATRIX_REGISTER_COUNT : Nat := 4

/-- VLU-24 vector coprocessor state. -/
structure Vlu (α : Type) where
  vectors : Fin 8 → Vec3 α
  matrices : Fin 4 → Mat3 α
  last_scalar : α

namespace Vlu

/-- Create a new VLU instance with zeroed registers. -/
def new (ops : ScalarOps α) : Vlu α :=
  { vectors := fun _ => Vec3.default ops
    matrices := fun _ => { rows := fun _ => Vec3.default ops }
    last_scalar := ops.zero }

/-- Rust `self.vectors.get(index)`: in-bounds lookup or
`InvalidVectorRegister`. -/
def getVec (vlu : Vlu α) (index : Nat) : Except VluError (Vec3 α) :=
  if h : index < 8 then .ok (vlu.vectors ⟨index, h⟩)
  else .error (.InvalidVectorRegister index)

/-- Rust `self.matrices.get(index)`: in-bounds lookup or
`InvalidMatrixRegister`. -/
def getMat (vlu : Vlu α) (index : Nat) : Except VluError (Mat3 α) :=
  if h : index < 4 then .ok (vlu.matrices ⟨index, h⟩)
  else .error (.InvalidMatrixRegister index)

/-- Rust `*self.vectors.get_mut(index)... = value`: in-bounds store or
`InvalidVectorRegister`. -/
def setVec (vlu : Vlu α) (index : Nat) (value : Vec3 α) : Except VluError (Vlu α) :=
  if h : index < 8 then
    .ok { vlu with vectors := fun i => if i = ⟨index, h⟩ then value else vlu.vectors i }
  else .error (.InvalidVectorRegister index)

/-- Perform a vector job and raise the VLU completion interrupt (id 4) on
the CPU.  The result models the Rust `&mut` parameters explicitly: the
returned `Vlu` and `Cpu` equal the inputs whenever the job fails, since
every mutation in the source happens after the fallible register lookups of
its arm. -/
def compute (ops : ScalarOps α) (vlu : Vlu α) (cpu : Cpu) (job : VluJob) :
    Except VluError (VluResult α) × Vlu α × Cpu :=
  let result : Except VluError (VluResult α × Vlu α) :=
    match job with
    | .Transform dest vec matrix => do
      let v ← vlu.getVec vec
      let m ← vlu.getMat matrix
      let transformed := m.mul_vec ops v
      let vlu1 ← vlu.setVec dest transformed
      pure (.Vector transformed, vlu1)
    | .Dot a b => do
      let lhs ← vlu.getVec a
      let rhs ← vlu.getVec b
      let dotv := lhs.dot ops rhs
      pure (.Scalar dotv, { vlu with last_scalar := dotv })
    | .Cross dest a b => do
      let lhs ← vlu.getVec a
      let rhs ← vlu.getVec b
      let crossv := lhs.cross ops rhs
      let vlu1 ← vlu.setVec dest crossv
      pure (.Vector crossv, vlu1)
    | .Normalize dest src => do
      let v ← vlu.getVec src
      let normalized := v.normalize ops
      let vlu1 ← vlu.setVec dest normalized
      pure (.Vector normalized, vlu1)
  match result with
  | .error e => (.error e, vlu, cpu)
  | .ok (res, vlu1) => (.ok res, vlu1, cpu.request_interrupt 4)

end Vlu

end Nexel

namespace Nexel

/-! ### NRAW assembler (`src/nraw.rs`)

Rust strings are embedded as `List Char`; the source only manipulates ASCII
here (mnemonics, labels, literals), for which the embedded `trim`,
`to_uppercase`, `split_whitespace` and friends coincide with the Rust
originals.  The `HashMap<String, u32>` label table is embedded as an
association list: the assembler checks `contains_key` before every insert,
so keys are unique and lookup order is irrelevant. -/

/-- Whitespace test used by `trim` and `split_whitespace` (ASCII subset). -/
def isWs (c : Char) : Bool := c = ' ' || c = '\t' || c = '\n' || c = '\r'

/-- Rust `str::trim`. -/
def trimChars (cs : List Char) : List Char :=
  ((cs.dropWhile isWs).reverse.dropWhile isWs).reverse

/-- Split a line into the segments between `:` separators (empties kept).
The label loop of `assemble` repeatedly takes everything before the first
remaining colon; since `trim` removes only whitespace and never a colon,
iterating `find(':')` over the successively trimmed remainders visits
exactly these segments in order. -/
def splitColons : List Char → List (List Char)
  | [] => [[]]
  | c :: rest =>
    if c = ':' then [] :: splitColons rest
    else
      match splitColons rest with
      | [] => [[c]]
      | w :: ws => (c :: w) :: ws

/-- Rust `str::lines`: split on newline, dropping one trailing empty line
and any trailing carriage returns. -/
def rustLines (cs : List Char) : List (List Char) :=
  if cs = [] then []
  else
    let parts := splitNl cs
    let parts := if parts.getLast? = some [] then parts.dropLast else parts
    parts.map fun l => if l.getLast? = some '\r' then l.dropLast else l
where
  splitNl : List Char → List (List Char)
    | [] => [[]]
    | c :: rest =>
      if c = '\n' then [] :: splitNl rest
      else
        match splitNl rest with
        | [] => [[c]]
        | w :: ws => (c :: w) :: ws

/-- Rust `str::split_whitespace`: maximal non-whitespace runs. -/
def words : List Char → List (List Char)
  | [] => []
  | c :: cs =>
    if isWs c then words cs
    else
      match words cs with
      | [] => [[c]]
      | w :: ws =>
        match cs with
        | [] => [[c]]
        | d :: _ => if isWs d then [c] :: w :: ws else (c :: w) :: ws

/-- Assembled output: emitted bytes and the label table. -/
structure AssembledProgram where
  bytes : List Nat
  labels : List (List Char × Nat)
deriving DecidableEq, Repr

/-- Errors produced while assembling NRAW source. -/
inductive AsmError where
  | UnknownInstruction (line : Nat) (token : List Char)
  | MissingOperand (line : Nat) (instruction : List Char)
  | UnexpectedOperand (line : Nat) (instruction : List Char)
  | InvalidNumber (line : Nat) (operand : List Char)
  | LabelNotFound (name : List Char)
  | DuplicateLabel (line : Nat) (name : List Char)
  | BranchOutOfRange (label : List Char) (offset : Int)
deriving DecidableEq, Repr

inductive InstructionKind where
  | Nop | Lda | LdaAbs | Sta | Ldx | LdxAbs | Stx | Ldy | LdyAbs | Sty
  | Add | Sub | And | Or | Xor | Mul | Div | Mov | Inc | Dec
  | Bit | Bset | Bclr | Jmp | Jsr | Rts | Bra | Beq | Bne | Bcs
  | Bcc | Bmi | Bpl | Bvs | Bvc | Sei | Cli | Rti | Wfi | Cop | Hlt
deriving DecidableEq, Repr

/-- Debug formatting `format!("{:?}", kind)` of an instruction kind. -/
def kindName : InstructionKind → List Char
  | .Nop => "Nop".data | .Lda => "Lda".data | .LdaAbs => "LdaAbs".data
  | .Sta => "Sta".data | .Ldx => "Ldx".data | .LdxAbs => "LdxAbs".data
  | .Stx => "Stx".data | .Ldy => "Ldy".data | .LdyAbs => "LdyAbs".data
  | .Sty => "Sty".data | .Add => "Add".data | .Sub => "Sub".data
  | .And => "And".data | .Or => "Or".data | .Xor => "Xor".data
  | .Mul => "Mul".data | .Div => "Div".data | .Mov => "Mov".data
  | .Inc => "Inc".data | .Dec => "Dec".data | .Bit => "Bit".data
  | .Bset => "Bset".data | .Bclr => "Bclr".data | .Jmp => "Jmp".data
  | .Jsr => "Jsr".data | .Rts => "Rts".data | .Bra => "Bra".data
  | .Beq => "Beq".data | .Bne => "Bne".data | .Bcs => "Bcs".data
  | .Bcc => "Bcc".data | .Bmi => "Bmi".data | .Bpl => "Bpl".data
  | .Bvs => "Bvs".data | .Bvc => "Bvc".data | .Sei => "Sei".data
  | .Cli => "Cli".data | .Rti => "Rti".data | .Wfi => "Wfi".data
  | .Cop => "Cop".data | .Hlt => "Hlt".data

inductive Operand where
  | Value (v : Nat)
  | Label (name : List Char)
deriving DecidableEq, Repr

structure RawInstruction where
  kind : InstructionKind
  operand : Option Operand
  address : Nat
  line : Nat
deriving DecidableEq, Repr

/-- Label-table lookup (`HashMap::get`). -/
def lookupLab (labels : List (List Char × Nat)) (name : List Char) : Option Nat :=
  (labels.find? fun p => p.1 = name).map (·.2)

/-- Value of one digit for the given radix, as accepted by
`u32::from_str_radix`. -/
def digitVal (radix : Nat) (c : Char) : Option Nat :=
  let v :=
    if '0' ≤ c ∧ c ≤ '9' then some (c.toNat - '0'.toNat)
    else if 'a' ≤ c ∧ c ≤ 'z' then some (c.toNat - 'a'.toNat + 10)
    else if 'A' ≤ c ∧ c ≤ 'Z' then some (c.toNat - 'A'.toNat + 10)
    else none
  match v with
  | some v => if v < radix then some v else none
  | none => none

/-- Rust `u32::from_str_radix` (also covering `str::parse::<u32>` with
radix 10): an optional leading `+`, then a non-empty run of digits, failing
on any invalid digit or on overflow past `u32::MAX`. -/
def fromStrRadix (radix : Nat) (cs : List Char) : Option Nat :=
  let cs := match cs with
    | '+' :: rest => rest
    | _ => cs
  if cs = [] then none
  else
    let step : Option Nat → Char → Option Nat := fun acc c =>
      match acc, digitVal radix c with
      | some v, some d => if v * radix + d < 4294967296 then some (v * radix + d) else none
      | _, _ => none
    cs.foldl step (some 0)

/-- Parse a numeric literal: `0x…` hex, `$…` hex, otherwise decimal. -/
def parse_number (token : List Char) (line : Nat) : Except AsmError Nat :=
  match token with
  | '0' :: 'x' :: rest =>
    match fromStrRadix 16 rest with
    | some v => .ok v
    | none => .error (.InvalidNumber line token)
  | _ =>
    if token.head? = some '$' then
      match fromStrRadix 16 token.tail with
      | some v => .ok v
      | none => .error (.InvalidNumber line token)
    else
      match fromStrRadix 10 token with
      | some v => .ok v
      | none => .error (.InvalidNumber line token)

/-- Parse a register name operand (`MOV`/`INC`/`DEC`). -/
def parse_register (token : List Char) (line : Nat) : Except AsmError Nat :=
  let upper := token.map Char.toUpper
  if upper = "A".data then .ok 0
  else if upper = "X".data then .ok 1
  else if upper = "Y".data then .ok 2
  else if upper = "SP".data then .ok 3
  else if upper = "R0".data then .ok 4
  else if upper = "R1".data then .ok 5
  else if upper = "R2".data then .ok 6
  else if upper = "R3".data then .ok 7
  else if upper = "R4".data then .ok 8
  else if upper = "R5".data then .ok 9
  else if upper = "R6".data then .ok 10
  else if upper = "R7".data then .ok 11
  else .error (.InvalidNumber line token)

/-- Encoded length in bytes of each instruction kind. -/
def instruction_length : InstructionKind → Nat
  | .Nop | .Rts | .Sei | .Cli | .Rti | .Wfi | .Hlt => 1
  | .Bra | .Beq | .Bne | .Bcs | .Bcc | .Bmi | .Bpl | .Bvs | .Bvc
  | .Inc | .Dec | .Mov | .Cop => 2
  | .Lda | .Ldx | .Ldy | .Add | .Sub | .And | .Or | .Xor | .Mul | .Div
  | .Bit | .Bset | .Bclr => 3
  | .LdaAbs | .LdxAbs | .LdyAbs | .Sta | .Stx | .Sty | .Jmp | .Jsr => 4

end Nexel

namespace Nexel

/-- Leading-label extraction loop of `assemble` (the `loop` over
`find(':')`): every segment before a colon is recorded as a label at the
current address (after a duplicate check, empty labels skipped), and the
trimmed remainder after the last colon is returned as the instruction
text. -/
def extractLabels (lineIdx : Nat) (address : Nat) (labels : List (List Char × Nat))
    (working : List Char) :
    Except AsmError (List (List Char × Nat) × List Char) :=
  go labels (splitColons working)
where
  go (labels : List (List Char × Nat)) :
      List (List Char) → Except AsmError (List (List Char × Nat) × List Char)
    | [] => .ok (labels, [])
    | [last] => .ok (labels, trimChars last)
    | seg :: rest =>
      let label := trimChars seg
      if label ≠ [] ∧ (lookupLab labels label).isSome then
        .error (.DuplicateLabel (lineIdx + 1) label)
      else go (if label ≠ [] then labels ++ [(label, address)] else labels) rest

/-- Mnemonic dispatch of `assemble`, including the `#`-polymorphic load
instructions. -/
def kindOfName (lineIdx : Nat) (op name : List Char) (operand_text : Option (List Char)) :
    Except AsmError InstructionKind :=
  if name = "NOP".data then .ok .Nop
  else if name = "LDA".data then
    match operand_text with
    | some t => .ok (if t.head? = some '#' then .Lda else .LdaAbs)
    | none => .error (.MissingOperand (lineIdx + 1) name)
  else if name = "LDX".data then
    match operand_text with
    | some t => .ok (if t.head? = some '#' then .Ldx else .LdxAbs)
    | none => .error (.MissingOperand (lineIdx + 1) name)
  else if name = "LDY".data then
    match operand_text with
    | some t => .ok (if t.head? = some '#' then .Ldy else .LdyAbs)
    | none => .error (.MissingOperand (lineIdx + 1) name)
  else if name = "STA".data then .ok .Sta
  else if name = "STX".data then .ok .Stx
  else if name = "STY".data then .ok .Sty
  else if name = "ADD".data then .ok .Add
  else if name = "SUB".data then .ok .Sub
  else if name = "AND".data then .ok .And
  else if name = "OR".data then .ok .Or
  else if name = "XOR".data then .ok .Xor
  else if name = "MUL".data then .ok .Mul
  else if name = "DIV".data then .ok .Div
  else if name = "MOV".data then .ok .Mov
  else if name = "INC".data then .ok .Inc
  else if name = "DEC".data then .ok .Dec
  else if name = "BIT".data then .ok .Bit
  else if name = "BSET".data then .ok .Bset
  else if name = "BCLR".data then .ok .Bclr
  else if name = "JMP".data then .ok .Jmp
  else if name = "JSR".data then .ok .Jsr
  else if name = "RTS".data then .ok .Rts
  else if name = "BRA".data then .ok .Bra
  else if name = "BEQ".data then .ok .Beq
  else if name = "BNE".data then .ok .Bne
  else if name = "BCS".data then .ok .Bcs
  else if name = "BCC".data then .ok .Bcc
  else if name = "BMI".data then .ok .Bmi
  else if name = "BPL".data then .ok .Bpl
  else if name = "BVS".data then .ok .Bvs
  else if name = "BVC".data then .ok .Bvc
  else if name = "SEI".data then .ok .Sei
  else if name = "CLI".data then .ok .Cli
  else if name = "RTI".data then .ok .Rti
  else if name = "WFI".data then .ok .Wfi
  else if name = "COP".data then .ok .Cop
  else if name = "HLT".data then .ok .Hlt
  else .error (.UnknownInstruction (lineIdx + 1) op)

/-- Operand-class validation per instruction kind, mirroring the second
`match kind` of `assemble`. -/
def operandOf (lineIdx : Nat) (name : List Char) (kind : InstructionKind)
    (operand_text : Option (List Char)) : Except AsmError (Option Operand) :=
  match kind with
  | .Nop | .Rts | .Sei | .Cli | .Rti | .Wfi | .Hlt =>
    if operand_text.isSome then .error (.UnexpectedOperand (lineIdx + 1) name)
    else .ok none
  | .Lda | .Ldx | .Ldy | .Add | .Sub | .And | .Or | .Xor | .Mul | .Div
  | .Bit | .Bset | .Bclr | .Cop =>
    match operand_text with
    | none => .error (.MissingOperand (lineIdx + 1) name)
    | some t =>
      if t.head? ≠ some '#' then .error (.InvalidNumber (lineIdx + 1) t)
      else do
        let v ← parse_number (trimChars t.tail) (lineIdx + 1)
        pure (some (.Value v))
  | .LdaAbs | .LdxAbs | .LdyAbs | .Sta | .Stx | .Sty | .Jmp | .Jsr =>
    match operand_text with
    | none => .error (.MissingOperand (lineIdx + 1) name)
    | some t =>
      match parse_number t (lineIdx + 1) with
      | .ok v => .ok (some (.Value v))
      | .error _ => .ok (some (.Label t))
  | .Bra | .Beq | .Bne | .Bcs | .Bcc | .Bmi | .Bpl | .Bvs | .Bvc =>
    match operand_text with
    | none => .error (.MissingOperand (lineIdx + 1) name)
    | some t =>
      match parse_number t (lineIdx + 1) with
      | .ok v => .ok (some (.Value v))
      | .error _ => .ok (some (.Label t))
  | .Mov | .Inc | .Dec =>
    match operand_text with
    | none => .error (.MissingOperand (lineIdx + 1) name)
    | some t => do
      let v ← parse_register t (lineIdx + 1)
      pure (some (.Value v))

/-- Pass-1 processing of one source line: strip the `;` comment, extract
leading labels, validate the mnemonic and operand, record the instruction
and advance the location counter (`u32::wrapping_add`). -/
def assembleLine (st : List (List Char × Nat) × List RawInstruction × Nat)
    (lineIdx : Nat) (line : List Char) :
    Except AsmError (List (List Char × Nat) × List RawInstruction × Nat) := do
  let (labels, instructions, address) := st
  let stripped := trimChars (line.takeWhile fun c => c ≠ ';')
  if stripped = [] then pure st
  else do
    let (labels, working) ← extractLabels lineIdx address labels stripped
    if working = [] then pure (labels, instructions, address)
    else do
      let ws := words working
      let op := ws.headD []
      let name := op.map Char.toUpper
      let operand_text := ws[1]?
      let extra := ws[2]?
      if extra.isSome then .error (.UnexpectedOperand (lineIdx + 1) name)
      else do
        let kind ← kindOfName lineIdx op name operand_text
        let operand ← operandOf lineIdx name kind operand_text
        let inst : RawInstruction :=
          { kind := kind, operand := operand, address := address, line := lineIdx + 1 }
        pure (labels, instructions ++ [inst], toU32 (address + instruction_length kind))

/-- Resolve an instruction's operand to its numeric value (labels via the
symbol table). -/
def operand_value (inst : RawInstruction) (labels : List (List Char × Nat)) :
    Except AsmError Nat :=
  match inst.operand with
  | some (.Value v) => .ok v
  | some (.Label lbl) =>
    match lookupLab labels lbl with
    | some v => .ok v
    | none => .error (.LabelNotFound lbl)
  | none => .error (.MissingOperand inst.line (kindName inst.kind))

/-- Decimal rendering of a `u32` value (`value.to_string()`). -/
def natToDecimal (n : Nat) : List Char := Nat.toDigits 10 n

/-- Hexadecimal rendering `format!("0x{:02X}", v)`. -/
def formatHex02 (n : Nat) : List Char :=
  let ds := (Nat.toDigits 16 n).map Char.toUpper
  '0' :: 'x' :: (if ds.length < 2 then '0' :: ds else ds)

/-- Resolve an operand that must be a 24-bit address. -/
def operand_address (inst : RawInstruction) (labels : List (List Char × Nat)) :
    Except AsmError Nat := do
  let value ← operand_value inst labels
  if value ≥ 16777216 then .error (.InvalidNumber inst.line (natToDecimal value))
  else pure value

/-- Branch offset computation (`branch_offset`): the target and the address
after the operand are reinterpreted as `i32` (the Rust `as i32` casts) and
subtracted; offsets outside `[-128, 127]` fail with `BranchOutOfRange`. -/
def branch_offset (inst : RawInstruction) (labels : List (List Char × Nat)) :
    Except AsmError Int := do
  let target ← operand_value inst labels
  let pc_after_operand := inst.address + instruction_length inst.kind
  let offset := i32OfU32 target - i32OfU32 pc_after_operand
  if offset < -128 ∨ offset > 127 then
    .error (.BranchOutOfRange
      (match inst.operand with
       | some (.Label name) => name
       | _ => formatHex02 target)
      offset)
  else pure offset

/-- Branch opcodes of the emitter. -/
def branchOpcode : InstructionKind → Nat
  | .Bra => 0x30
  | .Beq => 0x31
  | .Bne => 0x32
  | .Bcs => 0x33
  | .Bcc => 0x34
  | .Bmi => 0x35
  | .Bpl => 0x36
  | .Bvs => 0x37
  | .Bvc => 0x38
  | _ => 0

/-- Little-endian bytes of a resolved 16-bit immediate
(`(value as u16).to_le_bytes()`). -/
def immBytes (v : Nat) : List Nat := [toU16 v &&& 0xFF, toU16 v >>> 8]

/-- Little-endian low three bytes of a 24-bit address
(`addr.to_le_bytes()[..3]`). -/
def addrBytes (a : Nat) : List Nat := [a &&& 0xFF, (a >>> 8) &&& 0xFF, (a >>> 16) &&& 0xFF]

/-- Pass-2 emission for one instruction. -/
def emit_bytes (labels : List (List Char × Nat)) (inst : RawInstruction) :
    Except AsmError (List Nat) :=
  match inst.kind with
  | .Nop => .ok [0x00]
  | .Hlt => .ok [0xFF]
  | .Rts => .ok [0x22]
  | .Sei => .ok [0x40]
  | .Cli => .ok [0x41]
  | .Rti => .ok [0x42]
  | .Wfi => .ok [0x43]
  | .Lda => do let v ← operand_value inst labels; pure (0x01 :: immBytes v)
  | .LdaAbs => do let a ← operand_address inst labels; pure (0x07 :: addrBytes a)
  | .Ldx => do let v ← operand_value inst labels; pure (0x03 :: immBytes v)
  | .LdxAbs => do let a ← operand_address inst labels; pure (0x08 :: addrBytes a)
  | .Ldy => do let v ← operand_value inst labels; pure (0x05 :: immBytes v)
  | .LdyAbs => do let a ← operand_address inst labels; pure (0x09 :: addrBytes a)
  | .Add => do let v ← operand_value inst labels; pure (0x10 :: immBytes v)
  | .Sub => do let v ← operand_value inst labels; pure (0x11 :: immBytes v)
  | .And => do let v ← operand_value inst labels; pure (0x12 :: immBytes v)
  | .Or => do let v ← operand_value inst labels; pure (0x13 :: immBytes v)
  | .Xor => do let v ← operand_value inst labels; pure (0x14 :: immBytes v)
  | .Mul => do let v ← operand_value inst labels; pure (0x15 :: immBytes v)
  | .Div => do let v ← operand_value inst labels; pure (0x16 :: immBytes v)
  | .Mov => do let v ← operand_value inst labels; pure [0x17, toU8 v]
  | .Inc => do let v ← operand_value inst labels; pure [0x18, toU8 v]
  | .Dec => do let v ← operand_value inst labels; pure [0x19, toU8 v]
  | .Bit => do let v ← operand_value inst labels; pure (0x1A :: immBytes v)
  | .Bset => do let v ← operand_value inst labels; pure (0x1B :: immBytes v)
  | .Bclr => do let v ← operand_value inst labels; pure (0x1C :: immBytes v)
  | .Cop => do let v ← operand_value inst labels; pure [0x44, toU8 v]
  | .Sta => do let a ← operand_address inst labels; pure (0x02 :: addrBytes a)
  | .Stx => do let a ← operand_address inst labels; pure (0x04 :: addrBytes a)
  | .Sty => do let a ← operand_address inst labels; pure (0x06 :: addrBytes a)
  | .Jmp => do let a ← operand_address inst labels; pure (0x20 :: addrBytes a)
  | .Jsr => do let a ← operand_address inst labels; pure (0x21 :: addrBytes a)
  | .Bra | .Beq | .Bne | .Bcs | .Bcc | .Bmi | .Bpl | .Bvs | .Bvc => do
    let offset ← branch_offset inst labels
    pure [branchOpcode inst.kind, u8OfI8 offset]

/-- Assemble a small NRAW program into bytes and label positions. -/
def assemble (source : List Char) : Except AsmError AssembledProgram := do
  let st ← (rustLines source).enum.foldlM
    (fun st (p : Nat × List Char) => assembleLine st p.1 p.2) ([], [], 0)
  let (labels, instructions, _) := st
  let bytes ← instructions.foldlM
    (fun acc inst => do
      let bs ← emit_bytes labels inst
      pure (acc ++ bs)) []
  pure { bytes := bytes, labels := labels }

end Nexel

namespace Nexel

/-! ## Claim theorems -/

/-- C10: the VDP's VRAM and CRAM accessors depend only on the offset modulo
the region size — `read_vram o = read_vram (o % 0x80000)`,
`read_cram o = read_cram (o % 0x10000)` — and out-of-range writes wrap into
the region the same way instead of being dropped or returning `0xFF`. -/
theorem c10_vram_cram_wrap (vdp : Vdp) (o v : Nat) :
    vdp.read_vram o = vdp.read_vram (o % 0x80000) ∧
    vdp.read_cram o = vdp.read_cram (o % 0x10000) ∧
    vdp.write_vram o v = vdp.write_vram (o % 0x80000) v ∧
    vdp.write_cram o v = vdp.write_cram (o % 0x10000) v := by
  refine ⟨?_, ?_, ?_, ?_⟩ <;>
    simp [Vdp.read_vram, Vdp.write_vram, Vdp.read_cram, Vdp.write_cram,
      Vdp.VRAM_SIZE, Vdp.CRAM_SIZE, Nat.mod_mod_of_dvd]

/-- C3 evaluation: a DMA-control write with bit 15 set, on a VDP whose
`dma_source = 0`, `dma_dest = 0x10`, `dma_length = 1` and `vram[0] = 0x42`,
copies nothing into `vram[0x10]`, raises no `DMA_DONE` bit in `irq_status`,
and leaves only the (raised-then-lowered) `DMA_BUSY` flag cleared — the
transfer and interrupt of the claim do not happen. -/
theorem c3_dma_control_write_copies_nothing :
    ((((Vdp.new.write_vram 0 0x42).write_reg 0x0074 0x10).write_reg
        0x0078 1).write_reg 0x007A 0x8000).read_vram 0x10 = 0 ∧
    ((((Vdp.new.write_vram 0 0x42).write_reg 0x0074 0x10).write_reg
        0x0078 1).write_reg 0x007A 0x8000).irq_status = 0 ∧
    ((((Vdp.new.write_vram 0 0x42).write_reg 0x0074 0x10).write_reg
        0x0078 1).write_reg 0x007A 0x8000).display_status &&& 0x8 = 0 ∧
    ((((Vdp.new.write_vram 0 0x42).write_reg 0x0074 0x10).write_reg
        0x0078 1).write_reg 0x007A 0x8000).dma_active = false ∧
    ((((Vdp.new.write_vram 0 0x42).write_reg 0x0074 0x10).write_reg
        0x0078 1).write_reg 0x007A 0x8000).dma_length = 1 ∧
    ((((Vdp.new.write_vram 0 0x42).write_reg 0x0074 0x10).write_reg
        0x0078 1).write_reg 0x007A 0x8000).read_vram 0 = 0x42 := by
  decide

/-- C2 evaluation: a fresh emulator whose BIOS holds the reset vector
`0xFF0003` followed by `LDA #0x1234` executes the `LDA` in one
`Nexel24::step`; the CPU consumes 2 cycles but the VDP is advanced by
exactly 1 cycle, not by the consumed 2. -/
theorem c2_step_advances_vdp_by_one :
    (((Nexel24.new.load_bios [0x03, 0x00, 0xFF, 0x01, 0x34, 0x12]).reset).step).cpu.cycles = 2 ∧
    (((Nexel24.new.load_bios [0x03, 0x00, 0xFF, 0x01, 0x34, 0x12]).reset).step).cpu.a = 0x1234 ∧
    (((Nexel24.new.load_bios [0x03, 0x00, 0xFF, 0x01, 0x34, 0x12]).reset).step).vdp.cycles = 1 := by
  decide

/-- C1 evaluation: a fresh emulator whose BIOS program is
`LDA #0x0042; STA $200000` (a store to the VRAM window) leaves the written
byte in the Bus's own backing `vram` array; the VDP's VRAM still reads `0`
at that offset, and the routed `Nexel24::read_memory` therefore also
returns `0` — the CPU store executed through `Nexel24::step` never reached
the VDP. -/
theorem c1_cpu_store_bypasses_vdp :
    ((((Nexel24.new.load_bios
        [0x03, 0x00, 0xFF, 0x01, 0x42, 0x00, 0x02, 0x00, 0x00, 0x20]).reset).step).step).cpu.a
        = 0x42 ∧
    ((((Nexel24.new.load_bios
        [0x03, 0x00, 0xFF, 0x01, 0x42, 0x00, 0x02, 0x00, 0x00, 0x20]).reset).step).step).bus.read_u8
        0x200000 = 0x42 ∧
    ((((Nexel24.new.load_bios
        [0x03, 0x00, 0xFF, 0x01, 0x42, 0x00, 0x02, 0x00, 0x00, 0x20]).reset).step).step).vdp.read_vram
        0 = 0 ∧
    ((((Nexel24.new.load_bios
        [0x03, 0x00, 0xFF, 0x01, 0x42, 0x00, 0x02, 0x00, 0x00, 0x20]).reset).step).step).read_memory
        0x200000 = 0 := by
  decide

end Nexel

namespace Nexel


/-- C7 counterexample: assembling the one-line source
`start: LDA #0x0100 : BRA start` does NOT emit the claimed bytes
`[0x01, 0x00, 0x01, 0x30, 0xFB]`; it emits `[0x30, 0xFE]`, because the
label-extraction loop consumes everything before each `:` as a label, so
`LDA #0x0100` is recorded as a (second) label at address 0 and only the
`BRA` is assembled. -/
theorem c7_one_liner_counterexample :
    assemble ("start: LDA #0x0100 : BRA start").data =
      .ok { bytes := [0x30, 0xFE],
            labels := [("start".data, 0), (("LDA #0x0100").data, 0)] } ∧
    ([0x30, 0xFE] : List Nat) ≠ [0x01, 0x00, 0x01, 0x30, 0xFB] := by
  exact ⟨rfl, by decide⟩

/-- C7 amended: on the one-line source the assembler succeeds but emits
`[0x30, 0xFE]` (the mid-line `LDA #0x0100 :` is swallowed as a label
declaration, leaving a 2-byte `BRA` back to address 0); the
newline-separated program `start:\nLDA #0x0100\nBRA start` emits exactly
the claimed `[0x01, 0x00, 0x01, 0x30, 0xFB]`. -/
theorem c7_assemble_example_programs :
    (assemble ("start: LDA #0x0100 : BRA start").data).map AssembledProgram.bytes =
      .ok [0x30, 0xFE] ∧
    (assemble ("start:\nLDA #0x0100\nBRA start").data).map AssembledProgram.bytes =
      .ok [0x01, 0x00, 0x01, 0x30, 0xFB] := by
  exact ⟨rfl, rfl⟩

/-- C6 counterexample: the source line `BRA 4294967295` assembles
successfully to `[0x30, 0xFD]`, although the claimed offset
`T − (A + L) = 4294967295 − 2` lies far outside `[−128, 127]`, so by the
claim the assembler would have to fail with `BranchOutOfRange`; the code
instead reinterprets the `u32` target as the `i32` value `−1`. -/
theorem c6_branch_wraparound_counterexample :
    (assemble ("BRA 4294967295").data).map AssembledProgram.bytes = .ok [0x30, 0xFD] ∧
    ¬(-128 ≤ (4294967295 : Int) - (0 + 2) ∧ (4294967295 : Int) - (0 + 2) ≤ 127) := by
  exact ⟨rfl, by decide⟩

/-- Signed reinterpretation is the identity below `2^31`. -/
theorem i32OfU32_of_lt {n : Nat} (h : n < 2147483648) : i32OfU32 n = (n : Int) := by
  unfold i32OfU32
  rw [Nat.mod_eq_of_lt (Nat.lt_of_lt_of_le h (by norm_num))]
  exact if_pos h

/-- Branch instruction kinds of the assembler. -/
def isBranchKind : InstructionKind → Bool
  | .Bra | .Beq | .Bne | .Bcs | .Bcc | .Bmi | .Bpl | .Bvs | .Bvc => true
  | _ => false

/-- C6 amended: for every branch instruction at address `A` with
instruction length `L` and resolved target `T`, as long as `T` and `A + L`
lie below `2^31` (so that the `as i32` reinterpretation in the source is
the identity), the computed offset is exactly `T − (A + L)`; assembly fails
with `BranchOutOfRange` precisely when that offset is outside
`[−128, 127]`, and otherwise the emitted 8-bit operand is its
two's-complement byte. -/
theorem c6_branch_offset_law (inst : RawInstruction) (labels : List (List Char × Nat))
    (target : Nat)
    (hval : operand_value inst labels = .ok target)
    (htarget : target < 2147483648)
    (haddr : inst.address + instruction_length inst.kind < 2147483648) :
    (((-128 : Int) ≤ (target : Int) - (inst.address + instruction_length inst.kind : Nat) ∧
        ((target : Int) - ((inst.address + instruction_length inst.kind : Nat) : Int)) ≤ 127) →
      branch_offset inst labels =
        .ok ((target : Int) - (inst.address + instruction_length inst.kind : Nat)) ∧
      (isBranchKind inst.kind = true →
        emit_bytes labels inst =
          .ok [branchOpcode inst.kind,
               u8OfI8 ((target : Int) - (inst.address + instruction_length inst.kind : Nat))])) ∧
    (¬((-128 : Int) ≤ (target : Int) - (inst.address + instruction_length inst.kind : Nat) ∧
        ((target : Int) - ((inst.address + instruction_length inst.kind : Nat) : Int)) ≤ 127) →
      ∃ lbl, branch_offset inst labels =
        .error (.BranchOutOfRange lbl
          ((target : Int) - (inst.address + instruction_length inst.kind : Nat)))) := by
  have hpc : i32OfU32 (inst.address + instruction_length inst.kind) =
      ((inst.address + instruction_length inst.kind : Nat) : Int) := i32OfU32_of_lt haddr
  have hT : i32OfU32 target = (target : Int) := i32OfU32_of_lt htarget
  constructor
  · intro hin
    have hnot : ¬((target : Int) - (inst.address + instruction_length inst.kind : Nat) < -128 ∨
        (target : Int) - (inst.address + instruction_length inst.kind : Nat) > 127) := by
      push_neg
      exact ⟨hin.1, hin.2⟩
    have hbo : branch_offset inst labels =
        .ok ((target : Int) - (inst.address + instruction_length inst.kind : Nat)) := by
      simp only [branch_offset, hval, hT, hpc, bind, Except.bind]
      rw [if_neg hnot]
      rfl
    refine ⟨hbo, ?_⟩
    intro hk
    cases hkind : inst.kind <;> simp only [isBranchKind, hkind] at hk <;>
      first
        | exact absurd hk (by decide)
        | (simp only [emit_bytes, hkind, hbo, bind, Except.bind]; rfl)
  · intro hout
    have hcond : (target : Int) - (inst.address + instruction_length inst.kind : Nat) < -128 ∨
        (target : Int) - (inst.address + instruction_length inst.kind : Nat) > 127 := by
      by_contra hc
      push_neg at hc
      exact hout ⟨hc.1, hc.2⟩
    refine ⟨(match inst.operand with
             | some (.Label name) => name
             | _ => formatHex02 target), ?_⟩
    simp only [branch_offset, hval, hT, hpc, bind, Except.bind]
    rw [if_pos hcond]

/-- C6 witness: a `BRA` at address 0 targeting address 0 has offset `−2`,
in range, and emits `[0x30, 0xFE]`. -/
theorem c6_branch_offset_law_witness :
    branch_offset { kind := .Bra, operand := some (.Value 0), address := 0, line := 1 } [] =
      .ok (-2) ∧
    emit_bytes [] { kind := .Bra, operand := some (.Value 0), address := 0, line := 1 } =
      .ok [0x30, 0xFE] := by
  have h := c6_branch_offset_law
    { kind := .Bra, operand := some (.Value 0), address := 0, line := 1 } [] 0
    (by rfl) (by decide) (by decide)
  have h1 := (h.1 (by decide)).1
  have h2 := (h.1 (by decide)).2 (by rfl)
  constructor
  · rw [h1]
    simp only [Except.ok.injEq]
    decide
  · rw [h2]
    simp only [Except.ok.injEq]
    decide

end Nexel

namespace Nexel

/-- Channel configuration used for the C8 scenario: channel 0 enabled with
sample length 1 (as after writing a one-byte sample length), all other
channels idle. -/
def c8Apu : Apu :=
  { Apu.new with channels := fun i =>
      if i = 0 then
        { ChannelState.default with enabled := true, sample_length := 1, buffer_empty := false }
      else ChannelState.default }

/-- C8 counterexample: with channel 0 enabled at sample length 1, calling
`Apu::step(0)` leaves the channel and the latch untouched because of the
early `cycles == 0` return, although the claim's unconditional
`ticks = max(cycles/64, 1) = 1` would require the length to drop to 0 and
both flags to rise. -/
theorem c8_step_zero_counterexample :
    ((c8Apu.step 0).channels 0).sample_length = 1 ∧
    ((c8Apu.step 0).channels 0).buffer_empty = false ∧
    (c8Apu.step 0).buffer_empty_latch = false ∧
    max (0 / 64) 1 = 1 ∧
    (c8Apu.channels 0).enabled = true ∧
    min (max (0 / 64) 1) (c8Apu.channels 0).sample_length = 1 := by
  decide

/-- Channel array of `Apu::step` after the early-return guard. -/
theorem apu_step_channels (apu : Apu) (cycles : Nat) (hc0 : cycles ≠ 0) (i : Fin 6) :
    (apu.step cycles).channels i =
      (if (apu.channels i).enabled then
        Apu.stepChannel (max (cycles / 64) 1) (apu.channels i)
       else apu.channels i) := by
  simp only [Apu.step, Apu.update_status, if_neg hc0]
  split <;> rfl

/-- Latch of `Apu::step` after the early-return guard. -/
theorem apu_step_latch (apu : Apu) (cycles : Nat) (hc0 : cycles ≠ 0) :
    (apu.step cycles).buffer_empty_latch =
      (if (List.finRange 6).any
            (fun i => Apu.channelSawEmpty (max (cycles / 64) 1) (apu.channels i))
       then true else apu.buffer_empty_latch) := by
  simp only [Apu.step, Apu.update_status, if_neg hc0]
  split <;> rfl

/-- C8 amended: for every call with `cycles ≥ 1` (a zero-cycle call returns
immediately without touching any state), `Apu::step` converts cycles to
`ticks = max(cycles/64, 1)` and decrements every enabled channel's positive
sample length by `min(ticks, length)`, raising the channel's buffer-empty
flag and the global latch when the length reaches zero; in particular with
channel 0 enabled at sample length 1, `step(64)` sets buffer-empty and
`take_buffer_empty()` then returns `true` on the first call and `false` on
the second. -/
theorem c8_apu_step_ticks (apu : Apu) (cycles : Nat) (hc : 1 ≤ cycles) (i : Fin 6)
    (hen : (apu.channels i).enabled = true)
    (hpos : 0 < (apu.channels i).sample_length) :
    (((apu.step cycles).channels i).sample_length
        = (apu.channels i).sample_length
          - min (max (cycles / 64) 1) (apu.channels i).sample_length) ∧
    ((apu.channels i).sample_length ≤ max (cycles / 64) 1 →
      ((apu.step cycles).channels i).buffer_empty = true ∧
      (apu.step cycles).buffer_empty_latch = true) ∧
    ((c8Apu.step 64).channels 0).buffer_empty = true ∧
    ((c8Apu.step 64).take_buffer_empty).1 = true ∧
    ((((c8Apu.step 64).take_buffer_empty).2).take_buffer_empty).1 = false := by
  have hc0 : cycles ≠ 0 := by omega
  have hch : (apu.step cycles).channels i
      = Apu.stepChannel (max (cycles / 64) 1) (apu.channels i) := by
    rw [apu_step_channels apu cycles hc0 i, if_pos hen]
  refine ⟨?_, ?_, by decide, by decide, by decide⟩
  · rw [hch]
    simp only [Apu.stepChannel]
    rw [if_pos hpos]
    split <;> rfl
  · intro hle
    have hzero : (apu.channels i).sample_length
        - min (max (cycles / 64) 1) (apu.channels i).sample_length = 0 := by
      omega
    constructor
    · rw [hch]
      simp only [Apu.stepChannel]
      rw [if_pos hpos, if_pos hzero]
    · have hsaw : Apu.channelSawEmpty (max (cycles / 64) 1) (apu.channels i) = true := by
        simp [Apu.channelSawEmpty, hen, hpos, hzero]
      have hany : (List.finRange 6).any
          (fun j => Apu.channelSawEmpty (max (cycles / 64) 1) (apu.channels j)) = true := by
        rw [List.any_eq_true]
        exact ⟨i, List.mem_finRange i, hsaw⟩
      rw [apu_step_latch apu cycles hc0, if_pos hany]

/-- C8 witness: the amended theorem applied to the concrete channel-0
scenario with `cycles = 64`. -/
theorem c8_apu_step_ticks_witness :
    ((c8Apu.step 64).channels 0).sample_length
      = (c8Apu.channels 0).sample_length
        - min (max (64 / 64) 1) (c8Apu.channels 0).sample_length ∧
    ((c8Apu.step 64).channels 0).buffer_empty = true ∧
    (c8Apu.step 64).buffer_empty_latch = true := by
  have h := c8_apu_step_ticks c8Apu 64 (by decide) 0 (by decide) (by decide)
  exact ⟨h.1, (h.2.1 (by decide)).1, (h.2.1 (by decide)).2⟩

end Nexel

namespace Nexel

/-- Invalid-register condition of a VLU job: some referenced vector index
is outside `0..7` or some referenced matrix index is outside `0..3`. -/
def VluJob.hasInvalidIndex : VluJob → Prop
  | .Transform dest vec matrix => 8 ≤ vec ∨ 4 ≤ matrix ∨ 8 ≤ dest
  | .Dot a b => 8 ≤ a ∨ 8 ≤ b
  | .Cross dest a b => 8 ≤ a ∨ 8 ≤ b ∨ 8 ≤ dest
  | .Normalize dest src => 8 ≤ src ∨ 8 ≤ dest

/-- C9: `Vlu::compute` fails exactly when the job references a vector
register index outside `0..7` or a matrix register index outside `0..3`
(the only errors being `InvalidVectorRegister` / `InvalidMatrixRegister`,
the sole constructors of `VluError`); on such a failure the VLU state —
vector registers, matrix registers, `last_scalar` — and the CPU are
unchanged and no interrupt is requested, while every successful job raises
the `VLU_DONE` interrupt (id 4) on the CPU via `request_interrupt`.  The
statement is polymorphic in the `f32` scalar arithmetic. -/
theorem c9_vlu_compute_error_discipline (α : Type) (ops : ScalarOps α)
    (vlu : Vlu α) (cpu : Cpu) (job : VluJob) :
    ((Vlu.compute ops vlu cpu job).1.isOk = false ↔ job.hasInvalidIndex) ∧
    (job.hasInvalidIndex →
      (Vlu.compute ops vlu cpu job).2.1 = vlu ∧
      (Vlu.compute ops vlu cpu job).2.2 = cpu) ∧
    (¬job.hasInvalidIndex →
      (Vlu.compute ops vlu cpu job).2.2 = cpu.request_interrupt 4) := by
  rcases job with ⟨dest, vec, matrix⟩ | ⟨a, b⟩ | ⟨dest, a, b⟩ | ⟨dest, src⟩ <;>
    simp only [Vlu.compute, Vlu.getVec, Vlu.getMat, Vlu.setVec, VluJob.hasInvalidIndex,
      bind, Except.bind, pure, Except.pure] <;>
    split_ifs <;>
    simp_all [Except.isOk, Except.toBool]

/-- Integer instantiation of the scalar primitives, used only to witness
the polymorphic VLU theorem on a concrete type. -/
def c9Ops : ScalarOps Int :=
  { add := (· + ·), sub := (· - ·), mul := (· * ·),
    mulAdd := fun a b c => a * b + c, zero := 0,
    leEpsilon := fun s => decide (s ≤ 0), invSqrt := fun _ => 1 }

/-- C9 witness: a `Transform` into the out-of-range destination register 8
fails and leaves the VLU (instantiated over `Int` scalars) and the CPU
untouched; the in-range `Dot` raises interrupt 4. -/
theorem c9_vlu_compute_error_discipline_witness :
    ((Vlu.compute c9Ops (Vlu.new c9Ops) Cpu.new (.Transform 8 0 0)).1.isOk = false) ∧
    ((Vlu.compute c9Ops (Vlu.new c9Ops) Cpu.new (.Transform 8 0 0)).2.2 = Cpu.new) ∧
    ((Vlu.compute c9Ops (Vlu.new c9Ops) Cpu.new (.Dot 0 1)).2.2
      = Cpu.new.request_interrupt 4) := by
  have h1 := c9_vlu_compute_error_discipline Int c9Ops (Vlu.new c9Ops) Cpu.new (.Transform 8 0 0)
  have h2 := c9_vlu_compute_error_discipline Int c9Ops (Vlu.new c9Ops) Cpu.new (.Dot 0 1)
  refine ⟨?_, ?_, ?_⟩
  · exact h1.1.mpr (by simp [VluJob.hasInvalidIndex])
  · exact (h1.2.1 (by simp [VluJob.hasInvalidIndex])).2
  · exact h2.2.2 (by simp [VluJob.hasInvalidIndex])

end Nexel

namespace Nexel

/-- Interrupt priorities never exceed the NMI priority 7. -/
theorem priorityOf_le_seven (i : Nat) : Cpu.priorityOf i ≤ 7 := by
  unfold Cpu.priorityOf
  split <;> omega

/-- Queue well-formedness: no duplicate ids and priority-descending order. -/
def queueWF (l : List Nat) : Prop :=
  l.Nodup ∧ List.Sorted Cpu.queueRel l

/-- `request_interrupt` preserves queue well-formedness. -/
theorem request_interrupt_WF (cpu : Cpu) (i : Nat)
    (h : queueWF cpu.pending_interrupts) :
    queueWF (cpu.request_interrupt i).pending_interrupts := by
  unfold Cpu.request_interrupt
  split
  · exact h
  · split
    · exact h
    · rename_i hmem
      have hnotmem : i ∉ cpu.pending_interrupts := by
        simpa using hmem
      constructor
      · refine (List.perm_insertionSort Cpu.queueRel _).nodup_iff.mpr ?_
        rw [List.nodup_append]
        refine ⟨h.1, List.nodup_singleton i, ?_⟩
        intro a ha hb
        rw [List.mem_singleton] at hb
        exact hnotmem (hb ▸ ha)
      · exact List.sorted_insertionSort Cpu.queueRel _

/-- `trigger_nmi` preserves queue well-formedness: id 7 has maximal
priority, so consing it at the front keeps the order. -/
theorem trigger_nmi_WF (cpu : Cpu) (h : queueWF cpu.pending_interrupts) :
    queueWF cpu.trigger_nmi.pending_interrupts := by
  unfold Cpu.trigger_nmi
  split
  · exact h
  · rename_i hmem
    have hnotmem : (7 : Nat) ∉ cpu.pending_interrupts := by
      simpa using hmem
    constructor
    · exact List.Nodup.cons hnotmem h.1
    · rw [List.sorted_cons]
      refine ⟨?_, h.2⟩
      intro b _
      unfold Cpu.queueRel
      calc Cpu.priorityOf b ≤ 7 := priorityOf_le_seven b
        _ = Cpu.priorityOf 7 := rfl

/-- Lemma: `execute_instruction` never touches the pending-interrupt
queue. -/
theorem execute_instruction_pending (cpu : Cpu) (opcode : Nat) (bus : Bus24) :
    (cpu.execute_instruction opcode bus).1.pending_interrupts = cpu.pending_interrupts := by
  unfold Cpu.execute_instruction
  split <;> first
    | (unfold Cpu.push_u24; rfl)
    | (unfold Cpu.pop_u24; rfl)
    | rfl
    | (split <;> rfl)

theorem handle_interrupts_nil (cpu : Cpu) (bus : Bus24)
    (hp : cpu.pending_interrupts = []) :
    Cpu.handle_interrupts cpu bus = (false, cpu, bus) := by
  unfold Cpu.handle_interrupts
  rw [hp]

theorem handle_interrupts_blocked (cpu : Cpu) (bus : Bus24) (int : Nat) (rest : List Nat)
    (hp : cpu.pending_interrupts = int :: rest)
    (hc : int ≠ 7 ∧ cpu.sr.interrupt_disable = true) :
    Cpu.handle_interrupts cpu bus = (false, cpu, bus) := by
  unfold Cpu.handle_interrupts
  rw [hp]
  dsimp only
  rw [if_pos hc]

theorem handle_interrupts_serviced_eq (cpu : Cpu) (bus : Bus24) (int : Nat) (rest : List Nat)
    (hp : cpu.pending_interrupts = int :: rest)
    (hgate : ¬(int ≠ 7 ∧ cpu.sr.interrupt_disable = true)) :
    Cpu.handle_interrupts cpu bus =
      (true,
       { cpu with
           sp := (((cpu.sp + 65535) % 65536 + 65535) % 65536 + 65535) % 65536,
           sr := { cpu.sr with interrupt_disable := true },
           pc := bus.read_u24 (0xFF0000 + int * 3),
           pending_interrupts := rest,
           cycles := cpu.cycles + 7 },
       ((bus.write_u8 cpu.sp (cpu.pc &&& 0xFF)).write_u8 ((cpu.sp + 65535) % 65536)
          ((cpu.pc >>> 8) &&& 0xFF)).write_u8 (((cpu.sp + 65535) % 65536 + 65535) % 65536)
          ((cpu.pc >>> 16) &&& 0xFF)) := by
  unfold Cpu.handle_interrupts
  rw [hp]
  dsimp only
  rw [if_neg hgate]
  unfold Cpu.push_u24
  dsimp only

theorem step_not_halted (cpu : Cpu) (bus : Bus24) (hh : cpu.halted = false) :
    cpu.step bus =
      (match Cpu.handle_interrupts cpu bus with
       | (true, cpu1, bus1) => (cpu1, bus1)
       | (false, cpu1, bus1) =>
         Cpu.execute_instruction { cpu1 with pc := toU32 (cpu1.pc + 1) }
           (bus1.read_u8 cpu1.pc) bus1) := by
  unfold Cpu.step
  rw [if_neg (by rw [hh]; exact Bool.false_ne_true)]

theorem step_serviced (cpu : Cpu) (bus : Bus24) (int : Nat) (rest : List Nat)
    (hh : cpu.halted = false)
    (hp : cpu.pending_interrupts = int :: rest)
    (hg : int = 7 ∨ cpu.sr.interrupt_disable = false) :
    (cpu.step bus).1.pending_interrupts = rest ∧
    (cpu.step bus).1.pc = bus.read_u24 (0xFF0000 + int * 3) ∧
    (cpu.step bus).1.sr.interrupt_disable = true ∧
    (cpu.step bus).1.cycles = cpu.cycles + 7 := by
  have hgate : ¬(int ≠ 7 ∧ cpu.sr.interrupt_disable = true) := by
    rcases hg with h7 | hI
    · intro hc
      exact hc.1 h7
    · intro hc
      rw [hI] at hc
      exact Bool.false_ne_true hc.2
  rw [step_not_halted cpu bus hh, handle_interrupts_serviced_eq cpu bus int rest hp hgate]
  exact ⟨rfl, rfl, rfl, rfl⟩

theorem step_masked (cpu : Cpu) (bus : Bus24) (int : Nat) (rest : List Nat)
    (hh : cpu.halted = false)
    (hp : cpu.pending_interrupts = int :: rest)
    (hm : int ≠ 7)
    (hI : cpu.sr.interrupt_disable = true) :
    (cpu.step bus).1.pending_interrupts = int :: rest := by
  rw [step_not_halted cpu bus hh, handle_interrupts_blocked cpu bus int rest hp ⟨hm, hI⟩]
  dsimp only
  rw [execute_instruction_pending]
  exact hp

theorem step_WF (cpu : Cpu) (bus : Bus24) (h : queueWF cpu.pending_interrupts) :
    queueWF (cpu.step bus).1.pending_interrupts := by
  rcases hhalt : cpu.halted with _ | _
  · rcases hp : cpu.pending_interrupts with _ | ⟨int, rest⟩
    · rw [step_not_halted cpu bus hhalt, handle_interrupts_nil cpu bus hp]
      dsimp only
      rw [execute_instruction_pending]
      exact h
    · by_cases hc : int ≠ 7 ∧ cpu.sr.interrupt_disable = true
      · rw [step_masked cpu bus int rest hhalt hp hc.1 hc.2]
        rw [hp] at h
        exact h
      · rw [(step_serviced cpu bus int rest hhalt hp (by
          rcases Decidable.em (int = 7) with h7 | h7
          · exact Or.inl h7
          · exact Or.inr (by
              rcases Decidable.em (cpu.sr.interrupt_disable = true) with hI | hI
              · exact absurd ⟨h7, hI⟩ hc
              · simpa using hI))).1]
        rw [hp] at h
        exact ⟨h.1.of_cons, h.2.of_cons⟩
  · unfold Cpu.step
    rw [if_pos hhalt]
    exact h

end Nexel

namespace Nexel

/-- States of the CPU reachable from `Cpu::new` through the three
operations that touch the interrupt queue. -/
inductive CpuReachable : Cpu → Prop where
  | new : CpuReachable Cpu.new
  | request {c : Cpu} (i : Nat) : CpuReachable c → CpuReachable (c.request_interrupt i)
  | nmi {c : Cpu} : CpuReachable c → CpuReachable c.trigger_nmi
  | step {c : Cpu} (bus : Bus24) : CpuReachable c → CpuReachable (c.step bus).1

/-- Lemma: the queue is well-formed in every reachable CPU state. -/
theorem reachable_WF {cpu : Cpu} (h : CpuReachable cpu) :
    queueWF cpu.pending_interrupts := by
  induction h with
  | new => exact ⟨List.nodup_nil, List.sorted_nil⟩
  | request i _ ih => exact request_interrupt_WF _ i ih
  | nmi _ ih => exact trigger_nmi_WF _ ih
  | step bus _ ih => exact step_WF _ bus ih

/-- C4: in every CPU state reachable through `request_interrupt`,
`trigger_nmi` and `step`, the pending-interrupt queue has no duplicate ids
and is ordered by priority descending (so its head has maximal priority);
`request_interrupt` of a maskable id while the interrupt-disable flag is
set leaves the CPU unchanged; `trigger_nmi` enqueues id 7 regardless of the
flag; a `step` whose head entry passes the dispatch gate (NMI, or
interrupts enabled) services exactly that head — the queue drops to its
tail, `PC` jumps to the handler from the vector table, and the
interrupt-disable flag is set — while a maskable head with the flag set is
not serviced and the queue survives the step unchanged. -/
theorem c4_interrupt_queue_discipline :
    (∀ cpu : Cpu, CpuReachable cpu →
      cpu.pending_interrupts.Nodup ∧
      List.Sorted Cpu.queueRel cpu.pending_interrupts ∧
      (∀ int rest, cpu.pending_interrupts = int :: rest →
        ∀ x ∈ cpu.pending_interrupts, Cpu.priorityOf x ≤ Cpu.priorityOf int)) ∧
    (∀ (cpu : Cpu) (i : Nat), i ≠ 7 → cpu.sr.interrupt_disable = true →
      cpu.request_interrupt i = cpu) ∧
    (∀ cpu : Cpu, 7 ∈ cpu.trigger_nmi.pending_interrupts) ∧
    (∀ (cpu : Cpu) (bus : Bus24) (int : Nat) (rest : List Nat),
      cpu.halted = false → cpu.pending_interrupts = int :: rest →
      (int = 7 ∨ cpu.sr.interrupt_disable = false) →
      (cpu.step bus).1.pending_interrupts = rest ∧
      (cpu.step bus).1.pc = bus.read_u24 (0xFF0000 + int * 3) ∧
      (cpu.step bus).1.sr.interrupt_disable = true) ∧
    (∀ (cpu : Cpu) (bus : Bus24) (int : Nat) (rest : List Nat),
      cpu.halted = false → cpu.pending_interrupts = int :: rest →
      int ≠ 7 → cpu.sr.interrupt_disable = true →
      (cpu.step bus).1.pending_interrupts = int :: rest) := by
  refine ⟨?_, ?_, ?_, ?_, ?_⟩
  · intro cpu hr
    have hwf := reachable_WF hr
    refine ⟨hwf.1, hwf.2, ?_⟩
    intro int rest heq x hx
    rw [heq] at hx
    rcases List.mem_cons.mp hx with rfl | hx
    · exact Nat.le_refl _
    · have hs := hwf.2
      rw [heq, List.sorted_cons] at hs
      exact hs.1 x hx
  · intro cpu i hi hI
    unfold Cpu.request_interrupt
    rw [if_pos ⟨hi, hI⟩]
  · intro cpu
    unfold Cpu.trigger_nmi
    split
    · rename_i hc
      simpa using hc
    · exact List.mem_cons_self 7 _
  · intro cpu bus int rest hh hp hg
    have h := step_serviced cpu bus int rest hh hp hg
    exact ⟨h.1, h.2.1, h.2.2.1⟩
  · intro cpu bus int rest hh hp hm hI
    exact step_masked cpu bus int rest hh hp hm hI

/-- C4 witness: the queue `[7, 5, 2]` built by two requests and an NMI is
duplicate-free and priority-descending, and a masked request is dropped. -/
theorem c4_interrupt_queue_discipline_witness :
    (((Cpu.new.request_interrupt 2).request_interrupt 5).trigger_nmi).pending_interrupts.Nodup ∧
    List.Sorted Cpu.queueRel
      ((((Cpu.new.request_interrupt 2).request_interrupt 5).trigger_nmi).pending_interrupts) ∧
    ({ Cpu.new with sr := { Cpu.new.sr with interrupt_disable := true } }.request_interrupt 4
      = { Cpu.new with sr := { Cpu.new.sr with interrupt_disable := true } }) := by
  have h := c4_interrupt_queue_discipline
  have hr : CpuReachable (((Cpu.new.request_interrupt 2).request_interrupt 5).trigger_nmi) :=
    CpuReachable.nmi (CpuReachable.request 5 (CpuReachable.request 2 CpuReachable.new))
  exact ⟨(h.1 _ hr).1, (h.1 _ hr).2.1, h.2.1 _ 4 (by decide) rfl⟩

end Nexel

namespace Nexel

/-- Lemma: a WorkRAM byte write is read back at the written address. -/
theorem read_after_write_eq (bus : Bus24) (a v c : Nat) (ha : a < 65536)
    (hca : c % 16777216 = a) :
    (bus.write_u8 a v).read_u8 c = v := by
  unfold Bus24.write_u8 Bus24.read_u8 Bus24.EXPANDED_RAM_BASE Bus24.IO_BASE Bus24.IO_SIZE
    Bus24.VRAM_BASE Bus24.VRAM_SIZE Bus24.CRAM_BASE Bus24.CRAM_SIZE Bus24.CART_ROM_BASE
    Bus24.CART_ROM_SIZE Bus24.CART_SAVE_BASE Bus24.CART_SAVE_SIZE Bus24.BIOS_BASE Bus24.BIOS_SIZE
  have ha24 : a % 16777216 = a := Nat.mod_eq_of_lt (by omega)
  rw [ha24, if_pos (show a < 65536 from ha)]
  dsimp only
  rw [if_pos (show c % 16777216 < 65536 by omega)]
  rw [if_pos hca]

/-- Lemma: a WorkRAM byte write leaves every other address unchanged. -/
theorem read_after_write_ne (bus : Bus24) (a v c : Nat) (ha : a < 65536)
    (hca : c % 16777216 ≠ a) :
    (bus.write_u8 a v).read_u8 c = bus.read_u8 c := by
  unfold Bus24.write_u8 Bus24.read_u8 Bus24.EXPANDED_RAM_BASE Bus24.IO_BASE Bus24.IO_SIZE
    Bus24.VRAM_BASE Bus24.VRAM_SIZE Bus24.CRAM_BASE Bus24.CRAM_SIZE Bus24.CART_ROM_BASE
    Bus24.CART_ROM_SIZE Bus24.CART_SAVE_BASE Bus24.CART_SAVE_SIZE Bus24.BIOS_BASE Bus24.BIOS_SIZE
  have ha24 : a % 16777216 = a := Nat.mod_eq_of_lt (by omega)
  rw [ha24, if_pos (show a < 65536 from ha)]
  dsimp only
  by_cases hc1 : c % 16777216 < 65536
  · rw [if_pos hc1]
    rw [if_neg hca]
    rw [if_pos hc1]
  · rw [if_neg hc1]
    rw [if_neg hc1]

/-- Lemma: reassembling the three pushed bytes (low, mid, high) of a
24-bit value recovers the value. -/
theorem recombine_u24 (v : Nat) (hv : v < 16777216) :
    (v &&& 255) ||| (((v >>> 8) &&& 255) <<< 8) ||| (((v >>> 16) &&& 255) <<< 16) = v := by
  apply Nat.eq_of_testBit_eq
  intro i
  have h255 : (255 : Nat) = 2 ^ 8 - 1 := by norm_num
  rw [h255]
  simp only [Nat.testBit_or, Nat.testBit_shiftLeft, Nat.testBit_shiftRight,
    Nat.testBit_and, Nat.testBit_two_pow_sub_one]
  by_cases h1 : i < 8
  · simp [decide_eq_true h1, decide_eq_false (show ¬(8 ≤ i) by omega),
      decide_eq_false (show ¬(16 ≤ i) by omega)]
  · by_cases h2 : i < 16
    · simp [decide_eq_false h1, decide_eq_true (show (8 : Nat) ≤ i by omega),
        decide_eq_false (show ¬(16 ≤ i) by omega),
        decide_eq_true (show i - 8 < 8 by omega),
        (show 8 + (i - 8) = i by omega)]
    · by_cases h3 : i < 24
      · simp [decide_eq_false h1, decide_eq_false (show ¬(i - 8 < 8) by omega),
          decide_eq_true (show (8 : Nat) ≤ i by omega),
          decide_eq_true (show (16 : Nat) ≤ i by omega),
          decide_eq_true (show i - 16 < 8 by omega),
          (show 16 + (i - 16) = i by omega)]
      · have hbit : v.testBit i = false := by
          apply Nat.testBit_eq_false_of_lt
          calc v < 16777216 := hv
            _ = 2 ^ 24 := by norm_num
            _ ≤ 2 ^ i := Nat.pow_le_pow_right (by norm_num) (by omega)
        simp [hbit, decide_eq_false h1, decide_eq_false (show ¬(i - 8 < 8) by omega),
          decide_eq_false (show ¬(i - 16 < 8) by omega)]

/-- Lemma: a non-halted step with an empty interrupt queue fetches the
opcode at `PC`, advances `PC`, and executes. -/
theorem step_fetch_exec (cpu : Cpu) (bus : Bus24) (hh : cpu.halted = false)
    (hp : cpu.pending_interrupts = []) :
    cpu.step bus =
      Cpu.execute_instruction { cpu with pc := toU32 (cpu.pc + 1) } (bus.read_u8 cpu.pc) bus := by
  rw [step_not_halted cpu bus hh, handle_interrupts_nil cpu bus hp]

/-- Lemma: the explicit effect of the `JSR` opcode (0x21): the return
address `PC+3` (after the operand was consumed) is pushed low, mid, high
while `SP` decrements after each byte, and `PC` jumps to the operand. -/
theorem execute_jsr_eq (c : Cpu) (bus : Bus24) :
    Cpu.execute_instruction c 0x21 bus =
      ({ c with
           pc := bus.read_u24 c.pc,
           sp := (((c.sp + 65535) % 65536 + 65535) % 65536 + 65535) % 65536,
           cycles := c.cycles + 5 },
       ((bus.write_u8 c.sp (toU32 (c.pc + 3) &&& 0xFF)).write_u8 ((c.sp + 65535) % 65536)
          ((toU32 (c.pc + 3) >>> 8) &&& 0xFF)).write_u8
          (((c.sp + 65535) % 65536 + 65535) % 65536) ((toU32 (c.pc + 3) >>> 16) &&& 0xFF)) := by
  unfold Cpu.execute_instruction Cpu.push_u24
  rfl

/-- Lemma: the explicit effect of the `RTS` opcode (0x22): `SP` is
incremented before each of three reads (high, mid, low) and `PC` is
rebuilt from them. -/
theorem execute_rts_eq (c : Cpu) (bus : Bus24) :
    Cpu.execute_instruction c 0x22 bus =
      ({ c with
           pc := bus.read_u8 ((((c.sp + 1) % 65536 + 1) % 65536 + 1) % 65536)
                 ||| (bus.read_u8 (((c.sp + 1) % 65536 + 1) % 65536) <<< 8)
                 ||| (bus.read_u8 ((c.sp + 1) % 65536) <<< 16),
           sp := (((c.sp + 1) % 65536 + 1) % 65536 + 1) % 65536,
           cycles := c.cycles + 4 }, bus) := by
  unfold Cpu.execute_instruction Cpu.pop_u24
  rfl

end Nexel

namespace Nexel

/-- Lemma: the `u32` wrap is the identity below `2^32`. -/
theorem toU32_eq_of_lt {n : Nat} (h : n < 4294967296) : toU32 n = n := by
  unfold toU32
  exact Nat.mod_eq_of_lt h

/-- C5: for every CPU state (not halted, empty interrupt queue, `SP` a
16-bit value, `PC + 4` inside the 24-bit space) whose next instruction is
`JSR addr` with an `RTS` at the target that does not collide with the three
stack cells, the `JSR` pushes the return address `PC + 4` into WorkRAM low,
mid, high at `SP`, `SP-1`, `SP-2` (write-then-decrement), and the following
`RTS` (pop increments `SP` before each read) restores `PC` to the
instruction immediately after the `JSR` and `SP` to its original value. -/
theorem c5_jsr_rts_roundtrip (cpu : Cpu) (bus : Bus24) (addr : Nat)
    (hh : cpu.halted = false)
    (hpend : cpu.pending_interrupts = [])
    (hsp : cpu.sp < 65536)
    (hpc : cpu.pc + 4 < 16777216)
    (hop : bus.read_u8 cpu.pc = 0x21)
    (haddr : bus.read_u24 (toU32 (cpu.pc + 1)) = addr)
    (hrts : bus.read_u8 addr = 0x22)
    (hno : addr % 16777216 ≠ cpu.sp ∧
           addr % 16777216 ≠ (cpu.sp + 65535) % 65536 ∧
           addr % 16777216 ≠ ((cpu.sp + 65535) % 65536 + 65535) % 65536) :
    ((cpu.step bus).1.pc = addr ∧
     (cpu.step bus).1.sp = (((cpu.sp + 65535) % 65536 + 65535) % 65536 + 65535) % 65536 ∧
     (cpu.step bus).2.read_u8 cpu.sp = (cpu.pc + 4) &&& 0xFF ∧
     (cpu.step bus).2.read_u8 ((cpu.sp + 65535) % 65536) = ((cpu.pc + 4) >>> 8) &&& 0xFF ∧
     (cpu.step bus).2.read_u8 (((cpu.sp + 65535) % 65536 + 65535) % 65536)
       = ((cpu.pc + 4) >>> 16) &&& 0xFF) ∧
    (((cpu.step bus).1.step (cpu.step bus).2).1.pc = cpu.pc + 4 ∧
     ((cpu.step bus).1.step (cpu.step bus).2).1.sp = cpu.sp) := by
  have hv : toU32 (toU32 (cpu.pc + 1) + 3) = cpu.pc + 4 := by
    rw [toU32_eq_of_lt (show cpu.pc + 1 < 4294967296 by omega)]
    rw [toU32_eq_of_lt (show cpu.pc + 1 + 3 < 4294967296 by omega)]
  have hs := step_fetch_exec cpu bus hh hpend
  rw [hop, execute_jsr_eq] at hs
  have hsp1lt : (cpu.sp + 65535) % 65536 < 65536 := Nat.mod_lt _ (by omega)
  have hsp2lt : ((cpu.sp + 65535) % 65536 + 65535) % 65536 < 65536 := Nat.mod_lt _ (by omega)
  -- the three pushed bytes, read back from the post-JSR bus
  have hb0 : (cpu.step bus).2.read_u8 cpu.sp = (cpu.pc + 4) &&& 0xFF := by
    rw [hs]
    dsimp only
    rw [read_after_write_ne _ _ _ _ hsp2lt (by omega),
        read_after_write_ne _ _ _ _ hsp1lt (by omega),
        read_after_write_eq _ _ _ _ hsp (by omega), hv]
  have hb1 : (cpu.step bus).2.read_u8 ((cpu.sp + 65535) % 65536)
      = ((cpu.pc + 4) >>> 8) &&& 0xFF := by
    rw [hs]
    dsimp only
    rw [read_after_write_ne _ _ _ _ hsp2lt (by omega),
        read_after_write_eq _ _ _ _ hsp1lt (by omega), hv]
  have hb2 : (cpu.step bus).2.read_u8 (((cpu.sp + 65535) % 65536 + 65535) % 65536)
      = ((cpu.pc + 4) >>> 16) &&& 0xFF := by
    rw [hs]
    dsimp only
    rw [read_after_write_eq _ _ _ _ hsp2lt (by omega), hv]
  have hfst_pc : (cpu.step bus).1.pc = addr := by
    rw [hs]
    dsimp only
    exact haddr
  have hfst_sp : (cpu.step bus).1.sp
      = (((cpu.sp + 65535) % 65536 + 65535) % 65536 + 65535) % 65536 := by
    rw [hs]
  have hfst_halted : (cpu.step bus).1.halted = false := by
    rw [hs]
    dsimp only
    exact hh
  have hfst_pend : (cpu.step bus).1.pending_interrupts = [] := by
    rw [hs]
    dsimp only
    exact hpend
  -- opcode fetched for the second step is the RTS placed at the target
  have hop2 : (cpu.step bus).2.read_u8 (cpu.step bus).1.pc = 0x22 := by
    rw [hfst_pc, hs]
    dsimp only
    rw [read_after_write_ne _ _ _ _ hsp2lt hno.2.2,
        read_after_write_ne _ _ _ _ hsp1lt hno.2.1,
        read_after_write_ne _ _ _ _ hsp hno.1]
    exact hrts
  have hs2 := step_fetch_exec (cpu.step bus).1 (cpu.step bus).2 hfst_halted hfst_pend
  rw [hop2, execute_rts_eq] at hs2
  refine ⟨⟨hfst_pc, hfst_sp, hb0, hb1, hb2⟩, ?_, ?_⟩
  · rw [hs2]
    dsimp only
    rw [hfst_sp]
    rw [(show ((((((cpu.sp + 65535) % 65536 + 65535) % 65536 + 65535) % 65536 + 1) % 65536
          + 1) % 65536 + 1) % 65536 = cpu.sp by omega),
        (show (((((cpu.sp + 65535) % 65536 + 65535) % 65536 + 65535) % 65536 + 1) % 65536
          + 1) % 65536 = (cpu.sp + 65535) % 65536 by omega),
        (show ((((cpu.sp + 65535) % 65536 + 65535) % 65536 + 65535) % 65536 + 1) % 65536
          = ((cpu.sp + 65535) % 65536 + 65535) % 65536 by omega)]
    rw [hb0, hb1, hb2]
    exact recombine_u24 _ hpc
  · rw [hs2]
    dsimp only
    rw [hfst_sp]
    omega


/-- CPU used to witness the JSR/RTS roundtrip: the reset state, about to
execute the BIOS at `0xFF0000`. -/
def c5Cpu : Cpu := Cpu.new

/-- Bus used to witness the JSR/RTS roundtrip: `JSR $200000` at the BIOS
base and an `RTS` at `0x200000` (VRAM). -/
def c5Bus : Bus24 :=
  (Bus24.new.load_bios [0x21, 0x00, 0x00, 0x20]).write_u8 0x200000 0x22

/-- C5 witness: executing `JSR $200000; RTS` from the reset state returns
with `PC = 0xFF0004` and `SP` restored to `0xFFFF`. -/
theorem c5_jsr_rts_roundtrip_witness :
    (((c5Cpu.step c5Bus).1.step (c5Cpu.step c5Bus).2).1.pc = 0xFF0004) ∧
    (((c5Cpu.step c5Bus).1.step (c5Cpu.step c5Bus).2).1.sp = 0xFFFF) := by
  have h := c5_jsr_rts_roundtrip c5Cpu c5Bus 0x200000 rfl rfl (by decide) (by decide)
    (by decide) (by decide) (by decide) (by decide)
  exact ⟨h.2.1, h.2.2⟩

end Nexel
